import Mathlib

/-!
Verification development for the study-content API backend (src/main.py).

The embedding models the seed catalog, the seed reconciler (`ensure_seed`),
the dual-mode resolvers (`list_subjects`, `list_chapters`, `list_topics`,
`list_mcqs`), the write endpoints (`create_note`, `create_mcq`) and the
answer checker (`check_mcq_answer`).

The document store (`database.py` is not part of the sources; its contract
is modelled from the spec: `create_document(kind, fields) -> id` and
`get_documents(kind, filter) -> list`, where an unavailable database raises
rather than returning empty).  A configured database is an explicit record
of typed collections; `none` stands for "no database configured", in which
case every query raises.

Identifiers are modelled as lists of characters so that the Python string
surgery (`split`, `int`, f-string concatenation, `startswith`) can be
reproduced exactly.  Exceptions are modelled with `Except Unit`; a
`try/except` is a `match` on that value.
-/

namespace StudyApp

/-- Exception-aware computation: `.error ()` models a raised Python
exception (in particular the document store raising when no database is
configured). -/
abbrev Py (α : Type) := Except Unit α

/-- Decidable equality of exception-aware results, so that concrete runs
can be checked by `decide`. -/
instance {ε α : Type} [DecidableEq ε] [DecidableEq α] : DecidableEq (Except ε α)
  | .error a, .error b =>
    match decEq a b with
    | isTrue h => isTrue (h ▸ rfl)
    | isFalse h => isFalse (fun e => h (Except.error.inj e))
  | .error _, .ok _ => isFalse (fun e => Except.noConfusion e)
  | .ok _, .error _ => isFalse (fun e => Except.noConfusion e)
  | .ok a, .ok b =>
    match decEq a b with
    | isTrue h => isTrue (h ▸ rfl)
    | isFalse h => isFalse (fun e => h (Except.ok.inj e))

/-- Characters of a string literal. -/
def chars (s : String) : List Char := s.data

/-- Accumulator for decimal digit parsing. -/
def digitsValCore : Nat → List Char → Option Nat
  | acc, [] => some acc
  | acc, c :: rest =>
    if c.isDigit then digitsValCore (acc * 10 + (c.toNat - 48)) rest else none

/-- Value of a nonempty all-digit string. -/
def digitsVal : List Char → Option Nat
  | [] => none
  | c :: rest => digitsValCore 0 (c :: rest)

/-- Optional single leading sign followed by digits. -/
def pyIntSigned : List Char → Option Int
  | [] => none
  | c :: rest =>
    if c = '-' then (digitsVal rest).map (fun n => -(n : Int))
    else if c = '+' then (digitsVal rest).map (fun n => (n : Int))
    else (digitsVal (c :: rest)).map (fun n => (n : Int))

/-- Leading and trailing whitespace removed. -/
def pyStrip (s : List Char) : List Char :=
  (((s.dropWhile (·.isWhitespace)).reverse.dropWhile (·.isWhitespace))).reverse

/-- Models Python `int(s)` on a decimal string: surrounding whitespace is
ignored, then an optional sign and digits; `none` models the raised
`ValueError`. -/
def pyInt (s : List Char) : Option Int := pyIntSigned (pyStrip s)

/-- Models Python list indexing `xs[i]` with negative indices counting from
the end; `none` models the raised `IndexError`. -/
def pyGet {α : Type} (xs : List α) (i : Int) : Option α :=
  if 0 ≤ i then xs.get? i.toNat
  else if i + xs.length < 0 then none
  else xs.get? (i + xs.length).toNat

/-- Models `s.split("-", 1)` unpacked into exactly two names: `none` models
the `ValueError` raised when there is no separator. -/
def splitDash1 : List Char → Option (List Char × List Char)
  | [] => none
  | c :: rest =>
    if c = '-' then some ([], rest)
    else (splitDash1 rest).map (fun p => (c :: p.1, p.2))

/-- Models `s.split("-q")`: full split on the two-character separator,
matched left to right without overlap. -/
def splitDashQ : List Char → List (List Char)
  | [] => [[]]
  | [c] => [[c]]
  | c :: d :: rest =>
    if c = '-' ∧ d = 'q' then [] :: splitDashQ rest
    else
      match splitDashQ (d :: rest) with
      | [] => [[c]]
      | h :: t => (c :: h) :: t

/-- Models `enumerate(xs, start=i)`. -/
def enumFrom {α : Type} : Nat → List α → List (Nat × α)
  | _, [] => []
  | i, x :: xs => (i, x) :: enumFrom (i + 1) xs

/-- Decimal rendering of a natural number (Python `str(i)` inside an
f-string). -/
def natChars (n : Nat) : List Char := (Nat.repr n).data

/-- Decimal rendering of an integer. -/
def intChars (n : Int) : List Char := (Int.repr n).data

/-- Python dict `.get` over an insertion-ordered association list. -/
def alistGet {κ α : Type} [BEq κ] (l : List (κ × α)) (k : κ) : Option α :=
  (l.find? (fun p => p.1 == k)).map (·.2)

-- ---------- Seed catalog (src/main.py lines 61-145) ----------

/-- One entry of `SEED_SUBJECTS`. -/
structure SubjSeed where
  board : String
  standard : String
  name : String
  stream : Option String
  description : Option String
  icon : Option String
deriving DecidableEq, Repr

/-- One entry of a `SEED_CHAPTERS` value list. -/
structure ChapSeed where
  number : Int
  title : String
  summary : Option String
deriving DecidableEq, Repr

/-- One entry of a `SEED_TOPICS` value list. -/
structure TopicSeed where
  title : String
  content : Option String
deriving DecidableEq, Repr

/-- One entry of a `SEED_MCQS` value list. -/
structure McqSeed where
  question : String
  options : List String
  answer_index : Int
deriving DecidableEq, Repr

def SEED_SUBJECTS : List SubjSeed :=
  [ ⟨"Maharashtra", "12", "Economics", some "Commerce",
      some "Macro & micro economic concepts for HSC.", some "üìà"⟩,
    ⟨"Maharashtra", "12", "Book Keeping & Accountancy", some "Commerce",
      some "Financial accounting and statements.", some "üìö"⟩,
    ⟨"Maharashtra", "12", "Secretarial Practice", some "Commerce",
      some "Company secretary duties and documentation.", some "üìù"⟩,
    ⟨"Maharashtra", "12", "Organization of Commerce and Management", some "Commerce",
      some "Business organization and management principles.", some "üè¢"⟩ ]

def SEED_CHAPTERS : List (String × List ChapSeed) :=
  [ ("Economics",
      [ ⟨1, "Introduction to Micro Economics", some "Basic concepts of micro economics."⟩,
        ⟨2, "Utility Analysis", some "Cardinal and ordinal utility."⟩ ]),
    ("Book Keeping & Accountancy",
      [ ⟨1, "Partnership Final Accounts", some "Final accounts of partnership firm."⟩,
        ⟨2, "Admission of Partner", some "Revaluation, goodwill, capital adjustments."⟩ ]),
    ("Secretarial Practice",
      [ ⟨1, "Company Correspondence", some "Notices, agenda, minutes."⟩,
        ⟨2, "Share Capital", some "Issue and allotment of shares."⟩ ]),
    ("Organization of Commerce and Management",
      [ ⟨1, "Principles of Management",
          some "Planning, organizing, staffing, directing, controlling."⟩,
        ⟨2, "Entrepreneurship Development",
          some "Entrepreneurial characteristics and process."⟩ ]) ]

def SEED_TOPICS : List ((String × Int) × List TopicSeed) :=
  [ (("Economics", 1),
      [ ⟨"Definitions of Economics", some "Wealth, Welfare, Scarcity, Growth definitions."⟩,
        ⟨"Micro vs Macro", some "Scope and limitations of micro economics."⟩ ]),
    (("Book Keeping & Accountancy", 1),
      [ ⟨"Final Accounts Components", some "Trading, P&L Account and Balance Sheet."⟩ ]) ]

def SEED_MCQS : List ((String × Int) × List McqSeed) :=
  [ (("Economics", 1),
      [ ⟨"Microeconomics studies _____.",
          ["Aggregate demand", "Individual units", "National income", "General price level"], 1⟩,
        ⟨"Utility is the _____ derived from a commodity.",
          ["cost", "satisfaction", "production", "income"], 1⟩ ]),
    (("Book Keeping & Accountancy", 1),
      [ ⟨"Which is prepared to ascertain gross profit?",
          ["Trading Account", "Balance Sheet", "P&L Appropriation A/c", "Trial Balance"], 0⟩ ]) ]

/-- The module-level seed tables bundled as one read-only value, so that
statements can quantify over the catalog (e.g. to express that a code path
does or does not consult it). -/
structure Catalog where
  subjects : List SubjSeed
  chapters : List (String × List ChapSeed)
  topics : List ((String × Int) × List TopicSeed)
  mcqs : List ((String × Int) × List McqSeed)
deriving DecidableEq, Repr

/-- The program's actual catalog. -/
def seedCatalog : Catalog := ⟨SEED_SUBJECTS, SEED_CHAPTERS, SEED_TOPICS, SEED_MCQS⟩

/-- A catalog with no content (used to witness catalog (in)dependence of
code paths). -/
def emptyCatalog : Catalog := ⟨[], [], [], []⟩

-- ---------- Document store model (spec section 6 collaborator contract) ----------

/-- A stored subject document (`create_document("subject", ...)` payload plus
the store-assigned `_id`). -/
structure SubjectDoc where
  oid : List Char
  board : String
  standard : String
  name : String
  stream : Option String
  description : Option String
  icon : Option String
deriving DecidableEq, Repr

/-- A stored chapter document. -/
structure ChapterDoc where
  oid : List Char
  subject_id : List Char
  number : Int
  title : String
  summary : Option String
deriving DecidableEq, Repr

/-- A stored topic document. -/
structure TopicDoc where
  oid : List Char
  chapter_id : List Char
  title : String
  content : Option String
deriving DecidableEq, Repr

/-- A stored note document. -/
structure NoteDoc where
  oid : List Char
  chapter_id : List Char
  title : String
  body : String
deriving DecidableEq, Repr

/-- A stored MCQ document. -/
structure McqDoc where
  oid : List Char
  chapter_id : List Char
  question : String
  options : List String
  answer_index : Int
deriving DecidableEq, Repr

/-- Modelled from the spec: the document store behind `database.py` (absent
from the sources).  Typed collections; `get_documents(kind, filter)` is an
exact-match filter over a collection, `create_document(kind, fields)`
appends a document with a fresh store-assigned id drawn from the `ctr`
counter. -/
structure DBState where
  subjects : List SubjectDoc
  chapters : List ChapterDoc
  topics : List TopicDoc
  notes : List NoteDoc
  mcqs : List McqDoc
  ctr : Nat
deriving DecidableEq, Repr

/-- A database with no documents. -/
def emptyDB : DBState := ⟨[], [], [], [], [], 0⟩

/-- The store-assigned id of the `n`-th created document. -/
def mintId (n : Nat) : List Char := chars "oid" ++ natChars n

/-- `get_documents("subject", filter)`: raises when no database is
configured (spec: unavailable database raises rather than returning
empty). -/
def getSubjects (db : Option DBState) (p : SubjectDoc → Bool) : Py (List SubjectDoc) :=
  match db with
  | none => .error ()
  | some st => .ok (st.subjects.filter p)

/-- `get_documents("chapter", filter)`. -/
def getChapters (db : Option DBState) (p : ChapterDoc → Bool) : Py (List ChapterDoc) :=
  match db with
  | none => .error ()
  | some st => .ok (st.chapters.filter p)

/-- `get_documents("topic", filter)`. -/
def getTopics (db : Option DBState) (p : TopicDoc → Bool) : Py (List TopicDoc) :=
  match db with
  | none => .error ()
  | some st => .ok (st.topics.filter p)

/-- `get_documents("note", filter)`. -/
def getNotes (db : Option DBState) (p : NoteDoc → Bool) : Py (List NoteDoc) :=
  match db with
  | none => .error ()
  | some st => .ok (st.notes.filter p)

/-- `get_documents("mcq", filter)`. -/
def getMcqs (db : Option DBState) (p : McqDoc → Bool) : Py (List McqDoc) :=
  match db with
  | none => .error ()
  | some st => .ok (st.mcqs.filter p)

-- ---------- Seed reconciler: ensure_seed (src/main.py lines 152-195) ----------

/-- `id_map` of `ensure_seed`: a Python dict from subject name to `_id`
string (later insertions overwrite earlier ones). -/
def IdMap : Type := String → Option (List Char)

/-- Dict insertion `m[k] = v`. -/
def updMap (m : IdMap) (k : String) (v : List Char) : IdMap :=
  fun x => if x == k then some v else m x

/-- The dict comprehension over `existing` building `id_map` (main.py line
157). -/
def idMapOf (subs : List SubjectDoc) : IdMap :=
  subs.foldl (fun m s => updMap m s.name s.oid) (fun _ => none)

/-- The subject document written by `create_document("subject", subj)`. -/
def subjDocOf (s : SubjSeed) (i : List Char) : SubjectDoc :=
  ⟨i, s.board, s.standard, s.name, s.stream, s.description, s.icon⟩

/-- `create_document("subject", subj)` returning the new id. -/
def create_subject (st : DBState) (s : SubjSeed) : List Char × DBState :=
  (mintId st.ctr,
   { st with subjects := st.subjects ++ [subjDocOf s (mintId st.ctr)], ctr := st.ctr + 1 })

/-- `create_document("chapter", {**ch, "subject_id": sid})`. -/
def create_chapter (st : DBState) (sid : List Char) (c : ChapSeed) : DBState :=
  { st with chapters := st.chapters ++ [⟨mintId st.ctr, sid, c.number, c.title, c.summary⟩],
            ctr := st.ctr + 1 }

/-- The `for ch in chapters: create_document(...)` loop (main.py lines
170-171). -/
def create_chapters (st : DBState) (sid : List Char) (cs : List ChapSeed) : DBState :=
  cs.foldl (fun st c => create_chapter st sid c) st

/-- `create_document("topic", {**t, "chapter_id": ch_id})`. -/
def create_topic (st : DBState) (chId : List Char) (t : TopicSeed) : DBState :=
  { st with topics := st.topics ++ [⟨mintId st.ctr, chId, t.title, t.content⟩],
            ctr := st.ctr + 1 }

/-- The `for t in topics: create_document(...)` loop. -/
def create_topics (st : DBState) (chId : List Char) (ts : List TopicSeed) : DBState :=
  ts.foldl (fun st t => create_topic st chId t) st

/-- `create_document("mcq", {**m, "chapter_id": ch_id})`. -/
def create_mcq_doc (st : DBState) (chId : List Char) (m : McqSeed) : DBState :=
  { st with mcqs := st.mcqs ++ [⟨mintId st.ctr, chId, m.question, m.options, m.answer_index⟩],
            ctr := st.ctr + 1 }

/-- The `for m in mcqs: create_document(...)` loop. -/
def create_mcqs (st : DBState) (chId : List Char) (ms : List McqSeed) : DBState :=
  ms.foldl (fun st m => create_mcq_doc st chId m) st

/-- The subject-seed loop of `ensure_seed` (main.py lines 159-162): create
each catalog subject matching the requested board/standard whose name is
not among the existing names, recording the new id in `id_map`. -/
def subjLoop (board standard : String) (names : List String) :
    List SubjSeed → DBState × IdMap → DBState × IdMap
  | [], acc => acc
  | s :: rest, (st, m) =>
    if s.board == board && s.standard == standard && !(names.contains s.name) then
      let c := create_subject st s
      subjLoop board standard names rest (c.2, updMap m s.name c.1)
    else
      subjLoop board standard names rest (st, m)

/-- The chapter-seed loop of `ensure_seed` (main.py lines 164-171): for
each catalog subject name with a mapped id, create the full catalog
chapter list when that subject has no chapters. -/
def chapLoop (m : IdMap) : List (String × List ChapSeed) → DBState → DBState
  | [], st => st
  | p :: rest, st =>
    match m p.1 with
    | none => chapLoop m rest st
    | some sid =>
      if sid.isEmpty then chapLoop m rest st
      else if (st.chapters.filter (fun d => d.subject_id == sid)).isEmpty then
        chapLoop m rest (create_chapters st sid p.2)
      else chapLoop m rest st

/-- The topic-seed loop of `ensure_seed` (main.py lines 173-182). -/
def topicLoop (m : IdMap) : List ((String × Int) × List TopicSeed) → DBState → DBState
  | [], st => st
  | p :: rest, st =>
    match m p.1.1 with
    | none => topicLoop m rest st
    | some sid =>
      if sid.isEmpty then topicLoop m rest st
      else
        match st.chapters.filter (fun d => d.subject_id == sid && d.number == p.1.2) with
        | [] => topicLoop m rest st
        | ch :: _ =>
          if (st.topics.filter (fun t => t.chapter_id == ch.oid)).isEmpty then
            topicLoop m rest (create_topics st ch.oid p.2)
          else topicLoop m rest st

/-- The MCQ-seed loop of `ensure_seed` (main.py lines 183-192). -/
def mcqLoop (m : IdMap) : List ((String × Int) × List McqSeed) → DBState → DBState
  | [], st => st
  | p :: rest, st =>
    match m p.1.1 with
    | none => mcqLoop m rest st
    | some sid =>
      if sid.isEmpty then mcqLoop m rest st
      else
        match st.chapters.filter (fun d => d.subject_id == sid && d.number == p.1.2) with
        | [] => mcqLoop m rest st
        | ch :: _ =>
          if (st.mcqs.filter (fun q => q.chapter_id == ch.oid)).isEmpty then
            mcqLoop m rest (create_mcqs st ch.oid p.2)
          else mcqLoop m rest st

/-- `existing` of `ensure_seed` (main.py line 155): the stored subjects
matching the requested board and standard. -/
def existingFor (board standard : String) (st : DBState) : List SubjectDoc :=
  st.subjects.filter (fun s => s.board == board && s.standard == standard)

/-- Lines 155-162 of `ensure_seed`: compute `existing`, `names`, `id_map`
and run the subject-seed loop. -/
def seedPhase1 (cat : Catalog) (board standard : String) (st : DBState) :
    DBState × IdMap :=
  subjLoop board standard ((existingFor board standard st).map (·.name)) cat.subjects
    (st, idMapOf (existingFor board standard st))

/-- `ensure_seed(board, standard)` on a configured database (the body of
main.py lines 154-192; with a configured store none of the modelled
operations raises, so the `except` clause is not taken). -/
def ensure_seed (cat : Catalog) (board standard : String) (st : DBState) : DBState :=
  mcqLoop (seedPhase1 cat board standard st).2 cat.mcqs
    (topicLoop (seedPhase1 cat board standard st).2 cat.topics
      (chapLoop (seedPhase1 cat board standard st).2 cat.chapters
        (seedPhase1 cat board standard st).1))

/-- `await ensure_seed(...)` as called by the route: with no database the
first `get_documents` raises and the blanket `except` returns normally
(main.py lines 193-195). -/
def ensure_seed_run (cat : Catalog) (board standard : String) :
    Option DBState → Option DBState
  | none => none
  | some st => some (ensure_seed cat board standard st)

/-- The subject documents the subject-seed loop inserts, with their
sequentially minted ids (a specification companion to `subjLoop`). -/
def createdDocs (board standard : String) (names : List String) :
    Nat → List SubjSeed → List SubjectDoc
  | _, [] => []
  | c, x :: rest =>
    if x.board == board && x.standard == standard && !(names.contains x.name) then
      subjDocOf x (mintId c) :: createdDocs board standard names (c + 1) rest
    else createdDocs board standard names c rest

/-- The chapter documents `create_chapters` inserts, with their
sequentially minted ids. -/
def chapDocsOf (sid : List Char) : Nat → List ChapSeed → List ChapterDoc
  | _, [] => []
  | c, x :: rest => ⟨mintId c, sid, x.number, x.title, x.summary⟩ :: chapDocsOf sid (c + 1) rest

/-- The topic documents `create_topics` inserts. -/
def topicDocsOf (chId : List Char) : Nat → List TopicSeed → List TopicDoc
  | _, [] => []
  | c, x :: rest => ⟨mintId c, chId, x.title, x.content⟩ :: topicDocsOf chId (c + 1) rest

/-- The MCQ documents `create_mcqs` inserts. -/
def mcqDocsOf (chId : List Char) : Nat → List McqSeed → List McqDoc
  | _, [] => []
  | c, x :: rest =>
    ⟨mintId c, chId, x.question, x.options, x.answer_index⟩ :: mcqDocsOf chId (c + 1) rest

/-- Chapter seeding is settled for an id map and a database: every mapped
catalog subject either already has chapter documents or has an empty
catalog chapter list. -/
def ChapsSeeded (m : IdMap) (cs : List (String × List ChapSeed)) (st : DBState) : Prop :=
  ∀ p ∈ cs, ∀ sid, m p.1 = some sid → sid.isEmpty = false →
    (st.chapters.filter (fun d => d.subject_id == sid)).isEmpty = false ∨ p.2 = []

/-- Topic seeding is settled: every mapped catalog chapter that exists in
the store either already has topic documents or has an empty catalog topic
list. -/
def TopicsSeeded (m : IdMap) (ts : List ((String × Int) × List TopicSeed))
    (st : DBState) : Prop :=
  ∀ p ∈ ts, ∀ sid, m p.1.1 = some sid → sid.isEmpty = false →
    ∀ ch l, st.chapters.filter (fun d => d.subject_id == sid && d.number == p.1.2) = ch :: l →
      (st.topics.filter (fun t => t.chapter_id == ch.oid)).isEmpty = false ∨ p.2 = []

/-- MCQ seeding is settled. -/
def McqsSeeded (m : IdMap) (ms : List ((String × Int) × List McqSeed))
    (st : DBState) : Prop :=
  ∀ p ∈ ms, ∀ sid, m p.1.1 = some sid → sid.isEmpty = false →
    ∀ ch l, st.chapters.filter (fun d => d.subject_id == sid && d.number == p.1.2) = ch :: l →
      (st.mcqs.filter (fun q => q.chapter_id == ch.oid)).isEmpty = false ∨ p.2 = []

/-- All the reconciliation checks pass: `ensure_seed` for this board and
standard performs zero writes on such a state. -/
def Stable (cat : Catalog) (board standard : String) (st : DBState) : Prop :=
  (∀ x ∈ cat.subjects, (x.board == board && x.standard == standard) = true →
    ((existingFor board standard st).map (·.name)).contains x.name = true)
  ∧ ChapsSeeded (idMapOf (existingFor board standard st)) cat.chapters st
  ∧ TopicsSeeded (idMapOf (existingFor board standard st)) cat.topics st
  ∧ McqsSeeded (idMapOf (existingFor board standard st)) cat.mcqs st

-- ---------- Public response shapes (src/main.py lines 20-58) ----------

/-- `SubjectOut`. -/
structure SubjectOut where
  id : List Char
  board : String
  standard : String
  name : String
  stream : Option String
  description : Option String
  icon : Option String
deriving DecidableEq, Repr

/-- `ChapterOut`. -/
structure ChapterOut where
  id : List Char
  subject_id : List Char
  number : Int
  title : String
  summary : Option String
deriving DecidableEq, Repr

/-- `TopicOut`. -/
structure TopicOut where
  id : List Char
  chapter_id : List Char
  title : String
  content : Option String
deriving DecidableEq, Repr

/-- `NoteIn`. -/
structure NoteIn where
  title : String
  body : String
deriving DecidableEq, Repr

/-- `NoteOut`. -/
structure NoteOut where
  id : List Char
  chapter_id : List Char
  title : String
  body : String
deriving DecidableEq, Repr

/-- `MCQOut`. -/
structure McqOut where
  id : List Char
  chapter_id : List Char
  question : String
  options : List String
  answer_index : Int
deriving DecidableEq, Repr

/-- An `HTTPException` raised by a route. -/
structure HttpError where
  status : Nat
  detail : String
deriving DecidableEq, Repr

-- ---------- Resolvers ----------

/-- The `SubjectOut(...)` mapping of a stored document (main.py lines
210-221). -/
def mapSubjectDoc (d : SubjectDoc) : SubjectOut :=
  ⟨d.oid, d.board, d.standard, d.name, d.stream, d.description, d.icon⟩

/-- The fallback branch of `list_subjects` (main.py lines 226-227):
enumerate the catalog subjects matching board/standard with 1-based
stringified ids. -/
def fallbackSubjects (cat : Catalog) (board standard : String) : List SubjectOut :=
  (enumFrom 1 (cat.subjects.filter (fun s => s.board == board && s.standard == standard))).map
    (fun p => ⟨natChars p.1, p.2.board, p.2.standard, p.2.name,
               p.2.stream, p.2.description, p.2.icon⟩)

/-- `GET /api/subjects` (main.py lines 202-227): run the reconciler, query
the store, return the stored subjects when nonempty, else the catalog
fallback; returns the response together with the (possibly reseeded)
database. -/
def list_subjects (cat : Catalog) (db : Option DBState) (board standard : String) :
    List SubjectOut × Option DBState :=
  let db1 := ensure_seed_run cat board standard db
  let out :=
    match getSubjects db1 (fun s => s.board == board && s.standard == standard) with
    | .error _ => fallbackSubjects cat board standard
    | .ok docs => if docs.isEmpty then fallbackSubjects cat board standard
                  else docs.map mapSubjectDoc
  (out, db1)

/-- The `ChapterOut(...)` mapping of a stored document (main.py lines
234-243). -/
def mapChapterDoc (d : ChapterDoc) : ChapterOut :=
  ⟨d.oid, d.subject_id, d.number, d.title, d.summary⟩

/-- Chapter list synthesized from catalog entries with derived ids
`"<subject_id>-<number>"` (main.py lines 250-259 and 267-276). -/
def synthChapters (subject_id : List Char) (cs : List ChapSeed) : List ChapterOut :=
  cs.map (fun c => ⟨subject_id ++ chars "-" ++ intChars c.number,
                    subject_id, c.number, c.title, c.summary⟩)

/-- `sub_by_id.get(...)` over the dict comprehension of main.py line 246
(later entries overwrite earlier ones). -/
def subjNameById (subs : List SubjectDoc) (i : List Char) : Option String :=
  (subs.reverse.find? (fun s => s.oid == i)).map (·.name)

/-- The subjects of the catalog with board `"Maharashtra"` and standard
`"12"` in catalog order (the `ordered` list of main.py line 262 and the
corresponding comprehensions at lines 304, 350 and 385). -/
def mh12 (cat : Catalog) : List SubjSeed :=
  cat.subjects.filter (fun s => s.board == "Maharashtra" && s.standard == "12")

/-- The pure seed fallback of `list_chapters` (main.py lines 262-278):
decode the subject id as a 1-based position (Python semantics, so negative
values index from the end); any failure raises and is answered with 404. -/
def chaptersPureFallback (cat : Catalog) (subject_id : List Char) :
    Except HttpError (List ChapterOut) :=
  match pyInt subject_id with
  | none => .error ⟨404, "Chapters not found for subject"⟩
  | some k =>
    match pyGet (mh12 cat) (k - 1) with
    | none => .error ⟨404, "Chapters not found for subject"⟩
    | some subj => .ok (synthChapters subject_id ((alistGet cat.chapters subj.name).getD []))

/-- `GET /api/subjects/{subject_id}/chapters` (main.py lines 229-278). -/
def list_chapters (cat : Catalog) (db : Option DBState) (subject_id : List Char) :
    Except HttpError (List ChapterOut) :=
  match getChapters db (fun d => d.subject_id == subject_id) with
  | .error _ => chaptersPureFallback cat subject_id
  | .ok docs =>
    if docs.isEmpty then
      match getSubjects db (fun _ => true) with
      | .error _ => chaptersPureFallback cat subject_id
      | .ok subs =>
        match subjNameById subs subject_id with
        | none => chaptersPureFallback cat subject_id
        | some nm =>
          if nm == "" then chaptersPureFallback cat subject_id
          else
            match alistGet cat.chapters nm with
            | none => chaptersPureFallback cat subject_id
            | some cs => .ok (synthChapters subject_id cs)
    else .ok (docs.map mapChapterDoc)

/-- The `TopicOut(...)` mapping of a stored document (main.py line 287). -/
def mapTopicDoc (d : TopicDoc) : TopicOut :=
  ⟨d.oid, d.chapter_id, d.title, d.content⟩

/-- Topic list synthesized from catalog entries with derived ids
`"<chapter_id>-t<i>"` (main.py lines 296 and 306). -/
def synthTopics (chapter_id : List Char) (ts : List TopicSeed) : List TopicOut :=
  (enumFrom 1 ts).map (fun p => ⟨chapter_id ++ chars "-t" ++ natChars p.1,
                                 chapter_id, p.2.title, p.2.content⟩)

/-- The chapter-id decode shared by the pure seed fallbacks of
`list_topics`, `list_mcqs` and `check_mcq_answer` (main.py lines 300-304,
346-350 and 382-385): split at the first `-`, parse both parts as ints and
select the subject by 1-based position from the board-filtered catalog
(Python semantics, negative indices counting from the end); `none` models
any raised exception in that block. -/
def pureChapterDecode (cat : Catalog) (chapter_id : List Char) :
    Option (SubjSeed × Int) :=
  match splitDash1 chapter_id with
  | none => none
  | some p =>
    match pyInt p.1 with
    | none => none
    | some k =>
      match pyInt p.2 with
      | none => none
      | some num =>
        match pyGet (mh12 cat) (k - 1) with
        | none => none
        | some subj => some (subj, num)

/-- The pure seed fallback of `list_topics` (main.py lines 300-308): on any
failure return the empty list. -/
def topicsPureFallback (cat : Catalog) (chapter_id : List Char) : List TopicOut :=
  match pureChapterDecode cat chapter_id with
  | none => []
  | some r => synthTopics chapter_id ((alistGet cat.topics (r.1.name, r.2)).getD [])

/-- `GET /api/chapters/{chapter_id}/topics` (main.py lines 281-308); the
endpoint never raises, every failure degrades to the pure fallback or to
the empty list. -/
def list_topics (cat : Catalog) (db : Option DBState) (chapter_id : List Char) :
    Py (List TopicOut) :=
  match getTopics db (fun t => t.chapter_id == chapter_id) with
  | .error _ => .ok (topicsPureFallback cat chapter_id)
  | .ok docs =>
    if docs.isEmpty then
      match splitDash1 chapter_id with
      | none => .ok (topicsPureFallback cat chapter_id)
      | some sp =>
        match pyInt sp.2 with
        | none => .ok (topicsPureFallback cat chapter_id)
        | some num =>
          match getSubjects db (fun _ => true) with
          | .error _ => .ok (topicsPureFallback cat chapter_id)
          | .ok subs =>
            match subjNameById subs sp.1 with
            | none => .ok (topicsPureFallback cat chapter_id)
            | some nm =>
              if nm == "" then .ok (topicsPureFallback cat chapter_id)
              else .ok (synthTopics chapter_id ((alistGet cat.topics (nm, num)).getD []))
    else .ok (docs.map mapTopicDoc)

/-- The `MCQOut(...)` mapping of a stored document (main.py line 333). -/
def mapMcqDoc (d : McqDoc) : McqOut :=
  ⟨d.oid, d.chapter_id, d.question, d.options, d.answer_index⟩

/-- MCQ list synthesized from catalog entries with derived ids
`"<chapter_id>-q<i>"` (main.py lines 342 and 352). -/
def synthMcqs (chapter_id : List Char) (ms : List McqSeed) : List McqOut :=
  (enumFrom 1 ms).map (fun p => ⟨chapter_id ++ chars "-q" ++ natChars p.1,
                                 chapter_id, p.2.question, p.2.options, p.2.answer_index⟩)

/-- The pure seed fallback of `list_mcqs` (main.py lines 346-354). -/
def mcqsPureFallback (cat : Catalog) (chapter_id : List Char) : List McqOut :=
  match pureChapterDecode cat chapter_id with
  | none => []
  | some r => synthMcqs chapter_id ((alistGet cat.mcqs (r.1.name, r.2)).getD [])

/-- `GET /api/chapters/{chapter_id}/mcqs` (main.py lines 328-354). -/
def list_mcqs (cat : Catalog) (db : Option DBState) (chapter_id : List Char) :
    Py (List McqOut) :=
  match getMcqs db (fun q => q.chapter_id == chapter_id) with
  | .error _ => .ok (mcqsPureFallback cat chapter_id)
  | .ok docs =>
    if docs.isEmpty then
      match splitDash1 chapter_id with
      | none => .ok (mcqsPureFallback cat chapter_id)
      | some sp =>
        match pyInt sp.2 with
        | none => .ok (mcqsPureFallback cat chapter_id)
        | some num =>
          match getSubjects db (fun _ => true) with
          | .error _ => .ok (mcqsPureFallback cat chapter_id)
          | .ok subs =>
            match subjNameById subs sp.1 with
            | none => .ok (mcqsPureFallback cat chapter_id)
            | some nm =>
              if nm == "" then .ok (mcqsPureFallback cat chapter_id)
              else .ok (synthMcqs chapter_id ((alistGet cat.mcqs (nm, num)).getD []))
    else .ok (docs.map mapMcqDoc)

-- ---------- Write endpoints (main.py lines 320-325 and 356-364) ----------

/-- The process state the write endpoints can see: the module globals `db`
and the seed tables. -/
structure World where
  db : Option DBState
  cat : Catalog

/-- `POST /api/chapters/{chapter_id}/notes` (main.py lines 320-325): 503
when no database is configured, otherwise create the note document. -/
def create_note (w : World) (chapter_id : List Char) (payload : NoteIn) :
    Except HttpError NoteOut × World :=
  match w.db with
  | none => (.error ⟨503, "Database not configured. Notes require database."⟩, w)
  | some st =>
    let nid := mintId st.ctr
    (.ok ⟨nid, chapter_id, payload.title, payload.body⟩,
     { w with db := some { st with notes := st.notes ++ [⟨nid, chapter_id, payload.title, payload.body⟩],
                                   ctr := st.ctr + 1 } })

/-- `POST /api/chapters/{chapter_id}/mcqs` (main.py lines 356-364): 503
when no database is configured, otherwise create the MCQ document (the
payload id is dropped, the path chapter id is used). -/
def create_mcq (w : World) (chapter_id : List Char) (payload : McqOut) :
    Except HttpError McqOut × World :=
  match w.db with
  | none => (.error ⟨503, "Database not configured. Creating MCQs requires database."⟩, w)
  | some st =>
    let nid := mintId st.ctr
    (.ok ⟨nid, chapter_id, payload.question, payload.options, payload.answer_index⟩,
     { w with db := some { st with mcqs := st.mcqs ++ [⟨nid, chapter_id, payload.question,
                                                       payload.options, payload.answer_index⟩],
                                   ctr := st.ctr + 1 } })

-- ---------- Answer checker (main.py lines 366-399) ----------

/-- The inner `try` of the seed branch of `check_mcq_answer` (main.py lines
381-386): decode the chapter id, index `SEED_MCQS` with the raising `[]`
access, then index the MCQ list at `n` (Python semantics); `none` models
any raised exception (caught at line 387). -/
def checkSeedCorrect (cat : Catalog) (chapter_id : List Char) (n : Int) : Option Int :=
  match pureChapterDecode cat chapter_id with
  | none => none
  | some r =>
    match alistGet cat.mcqs (r.1.name, r.2) with
    | none => none
    | some items => (pyGet items n).map (·.answer_index)

/-- The `except` handler of the seed branch (main.py lines 387-395):
re-resolve the subject name through the subjects collection; a missing
binding, a raising store, an unknown name/key or a bad index all answer
`False` (line 395); note that `int(number)` re-parses the same substring
the inner `try` parsed. -/
def checkSeedViaDb (cat : Catalog) (db : Option DBState) (chapter_id : List Char)
    (n : Int) (ans : Nat) : Py Bool :=
  match splitDash1 chapter_id with
  | none => .ok false
  | some sp =>
    match getSubjects db (fun _ => true) with
    | .error _ => .ok false
    | .ok subs =>
      match subjNameById subs sp.1 with
      | none => .ok false
      | some nm =>
        match pyInt sp.2 with
        | none => .ok false
        | some num =>
          match alistGet cat.mcqs (nm, num) with
          | none => .ok false
          | some items =>
            match pyGet items n with
            | none => .ok false
            | some m => .ok ((ans : Int) == m.answer_index)

/-- The seed branch of `check_mcq_answer` (main.py lines 377-399): reached
when the store lookup raised or found nothing. -/
def checkSeedBranch (cat : Catalog) (db : Option DBState)
    (chapter_id mcq_id : List Char) (ans : Nat) : Py Bool :=
  if (chapter_id ++ chars "-q").isPrefixOf mcq_id then
    match pyInt ((splitDashQ mcq_id).getLastD []) with
    | none => .ok false
    | some nq =>
      match checkSeedCorrect cat chapter_id (nq - 1) with
      | some correct => .ok ((ans : Int) == correct)
      | none => checkSeedViaDb cat db chapter_id (nq - 1) ans
  else .ok false

/-- `POST /api/chapters/{chapter_id}/mcqs/{mcq_id}/check` (main.py lines
366-399); the submitted index is a validated `answer_index >= 0`. -/
def check_mcq_answer (cat : Catalog) (db : Option DBState)
    (chapter_id mcq_id : List Char) (ans : Nat) : Py Bool :=
  match getMcqs db (fun d => d.oid == mcq_id) with
  | .ok (d :: _) => .ok ((ans : Int) == d.answer_index)
  | _ => checkSeedBranch cat db chapter_id mcq_id ans

-- ---------- Helper lemmas ----------

/-- Elements of a list survive `dropWhile` unless they satisfy the
predicate. -/
theorem mem_dropWhile_or {p : Char → Bool} {s : List Char} {c : Char} (h : c ∈ s) :
    c ∈ s.dropWhile p ∨ p c = true := by
  induction s with
  | nil => cases h
  | cons a l ih =>
    rw [List.dropWhile_cons]
    rcases List.mem_cons.mp h with rfl | hl
    · by_cases hp : p c
      · right; exact hp
      · left; simp [hp]
    · by_cases hp : p a
      · simpa [hp] using ih hl
      · left; simp [hp, hl]

/-- Elements of a string survive `pyStrip` unless they are whitespace. -/
theorem mem_pyStrip_or {s : List Char} {c : Char} (h : c ∈ s) :
    c ∈ pyStrip s ∨ c.isWhitespace = true := by
  unfold pyStrip
  rcases mem_dropWhile_or (p := (·.isWhitespace)) h with h1 | h1
  · rcases mem_dropWhile_or (p := (·.isWhitespace)) (List.mem_reverse.mpr h1) with h2 | h2
    · exact Or.inl (List.mem_reverse.mpr h2)
    · exact Or.inr h2
  · exact Or.inr h1

/-- A string with a digit value consists of digits. -/
theorem digitsValCore_digits :
    ∀ (acc : Nat) (s : List Char) (n : Nat), digitsValCore acc s = some n →
      ∀ c ∈ s, c.isDigit = true := by
  intro acc s
  induction s generalizing acc with
  | nil => intro n _ c hc; cases hc
  | cons a l ih =>
    intro n h c hc
    rw [digitsValCore] at h
    by_cases ha : a.isDigit
    · rcases List.mem_cons.mp hc with rfl | hl
      · exact ha
      · rw [if_pos ha] at h
        exact ih _ _ h c hl
    · rw [if_neg ha] at h
      cases h

/-- `digitsVal` succeeds only on all-digit strings. -/
theorem digitsVal_digits {s : List Char} {n : Nat} (h : digitsVal s = some n) :
    ∀ c ∈ s, c.isDigit = true := by
  cases s with
  | nil => intro c hc; cases hc
  | cons a l => exact digitsValCore_digits 0 (a :: l) n h

/-- A string accepted by `pyIntSigned` holds only signs and digits. -/
theorem pyIntSigned_chars {s : List Char} {k : Int} (h : pyIntSigned s = some k) :
    ∀ c ∈ s, c = '-' ∨ c = '+' ∨ c.isDigit = true := by
  cases s with
  | nil => intro c hc; cases hc
  | cons a l =>
    intro c hc
    rw [pyIntSigned] at h
    by_cases ha : a = '-'
    · rw [if_pos ha] at h
      rcases List.mem_cons.mp hc with rfl | hl
      · exact Or.inl ha
      · cases hdv : digitsVal l with
        | none => rw [hdv] at h; simp at h
        | some n => exact Or.inr (Or.inr (digitsVal_digits hdv c hl))
    · rw [if_neg ha] at h
      by_cases hb : a = '+'
      · rw [if_pos hb] at h
        rcases List.mem_cons.mp hc with rfl | hl
        · exact Or.inr (Or.inl hb)
        · cases hdv : digitsVal l with
          | none => rw [hdv] at h; simp at h
          | some n => exact Or.inr (Or.inr (digitsVal_digits hdv c hl))
      · rw [if_neg hb] at h
        cases hdv : digitsVal (a :: l) with
        | none => rw [hdv] at h; simp at h
        | some n => exact Or.inr (Or.inr (digitsVal_digits hdv c hc))

/-- A string accepted by Python `int()` cannot contain the letter q. -/
theorem pyInt_no_q {s : List Char} {k : Int} (h : pyInt s = some k) : 'q' ∉ s := by
  intro hq
  rcases mem_pyStrip_or hq with h1 | h1
  · rcases pyIntSigned_chars h 'q' h1 with h2 | h2 | h2 <;> simp_all
  · simp at h1

/-- `split("-", 1)` decomposes the string at its first dash. -/
theorem splitDash1_eq :
    ∀ (s : List Char) (p : List Char × List Char), splitDash1 s = some p →
      s = p.1 ++ '-' :: p.2 ∧ '-' ∉ p.1 := by
  intro s
  induction s with
  | nil => intro p h; cases h
  | cons c rest ih =>
    intro p h
    rw [splitDash1] at h
    by_cases hc : c = '-'
    · rw [if_pos hc] at h
      cases h
      subst hc
      exact ⟨rfl, by simp⟩
    · rw [if_neg hc] at h
      rcases Option.map_eq_some'.mp h with ⟨q, hq, rfl⟩
      obtain ⟨h1, h2⟩ := ih q hq
      refine ⟨by simp [h1], ?_⟩
      simp only [List.mem_cons, not_or]
      exact ⟨fun e => hc e.symm, h2⟩

/-- `pyGet` returns a member of the list. -/
theorem pyGet_mem {α : Type} {xs : List α} {i : Int} {a : α} (h : pyGet xs i = some a) :
    a ∈ xs := by
  unfold pyGet at h
  split at h
  · exact List.get?_mem h
  · split at h
    · cases h
    · exact List.get?_mem h

/-- `splitDashQ` never returns the empty list of pieces. -/
theorem splitDashQ_ne_nil : ∀ s : List Char, splitDashQ s ≠ [] := by
  intro s
  match s with
  | [] => simp [splitDashQ]
  | [c] => simp [splitDashQ]
  | c :: d :: rest =>
    rw [splitDashQ]
    split
    · simp
    · split <;> simp

/-- Prepending separator-free text extends the first piece of a
`split("-q")`. -/
theorem splitDashQ_append :
    ∀ (a s : List Char), 'q' ∉ a → s.head? ≠ some 'q' →
      ∀ (h : List Char) (t : List (List Char)), splitDashQ s = h :: t →
        splitDashQ (a ++ s) = (a ++ h) :: t := by
  intro a
  induction a with
  | nil => intro s _ _ h t hs; simpa using hs
  | cons c a' ih =>
    intro s ha hs h t hsplit
    have hqa' : 'q' ∉ a' := fun hx => ha (List.mem_cons_of_mem c hx)
    have hcq : c ≠ 'q' := fun hx => ha (hx ▸ List.mem_cons_self c a')
    cases hx : a' ++ s with
    | nil =>
      obtain ⟨ha', hs'⟩ := List.append_eq_nil.mp hx
      subst ha'
      subst hs'
      simp only [splitDashQ] at hsplit
      cases hsplit
      simp [splitDashQ]
    | cons d rest =>
      have hd : d ≠ 'q' := by
        cases a' with
        | nil =>
          simp only [List.nil_append] at hx
          intro hdq
          exact hs (by rw [hx, hdq]; rfl)
        | cons e a'' =>
          simp only [List.cons_append, List.cons.injEq] at hx
          intro hdq
          exact hqa' (List.mem_cons.mpr (Or.inl (hx.1.trans hdq).symm))
      have hrec := ih s hqa' hs h t hsplit
      rw [hx] at hrec
      show splitDashQ (c :: (a' ++ s)) = ((c :: a') ++ h) :: t
      rw [hx, splitDashQ]
      rw [if_neg (by rintro ⟨-, rfl⟩; exact hd rfl)]
      rw [hrec]
      simp

/-- `split("-q")` of a minted fallback MCQ id: the piece after the last
separator is the trailing index, provided the chapter id is q-free. -/
theorem splitDashQ_minted (cid t : List Char) (hq : 'q' ∉ cid)
    (ht : splitDashQ t = [t]) :
    splitDashQ (cid ++ chars "-q" ++ t) = (cid ++ []) :: [t] := by
  rw [List.append_assoc]
  have hsep : splitDashQ (chars "-q" ++ t) = [] :: [t] := by
    show splitDashQ ('-' :: 'q' :: t) = [] :: [t]
    rw [splitDashQ, if_pos ⟨rfl, rfl⟩, ht]
  exact splitDashQ_append cid (chars "-q" ++ t) hq (by simp [chars]) [] [t] hsep

/-- A list is a prefix (in the Boolean sense) of itself extended. -/
theorem isPrefixOf_append_self : ∀ (a t : List Char), a.isPrefixOf (a ++ t) = true := by
  intro a t
  induction a with
  | nil => simp [List.isPrefixOf]
  | cons c a' ih => simp [List.isPrefixOf, ih]

/-- `list_topics` answers on every path. -/
theorem list_topics_ok (cat : Catalog) (db : Option DBState) (chapter_id : List Char) :
    ∃ l, list_topics cat db chapter_id = .ok l := by
  unfold list_topics
  repeat' split
  all_goals exact ⟨_, rfl⟩

/-- `list_mcqs` answers on every path. -/
theorem list_mcqs_ok (cat : Catalog) (db : Option DBState) (chapter_id : List Char) :
    ∃ l, list_mcqs cat db chapter_id = .ok l := by
  unfold list_mcqs
  repeat' split
  all_goals exact ⟨_, rfl⟩

/-- Indexing past a head with a positive index. -/
theorem pyGet_cons_pos {α : Type} (x : α) (xs : List α) (n : Int) (h : 0 < n) :
    pyGet (x :: xs) n = pyGet xs (n - 1) := by
  unfold pyGet
  rw [if_pos (le_of_lt h), if_pos (by omega : 0 ≤ n - 1)]
  have hn : n.toNat = (n - 1).toNat + 1 := by omega
  rw [hn]
  rfl

/-- Membership in an enumeration determines the positional lookup. -/
theorem enumFrom_pyGet {α : Type} :
    ∀ (xs : List α) (j i : Nat) (x : α), (i, x) ∈ enumFrom j xs →
      j ≤ i ∧ i < j + xs.length ∧ pyGet xs ((i : Int) - (j : Int)) = some x := by
  intro xs
  induction xs with
  | nil => intro j i x h; cases h
  | cons y ys ih =>
    intro j i x h
    rw [enumFrom] at h
    rcases List.mem_cons.mp h with he | hl
    · obtain ⟨rfl, rfl⟩ := Prod.mk.injEq .. |>.mp he
      refine ⟨le_refl _, by simp, ?_⟩
      simp only [sub_self]
      rfl
    · obtain ⟨h1, h2, h3⟩ := ih (j + 1) i x hl
      refine ⟨by omega, by simp only [List.length_cons]; omega, ?_⟩
      rw [pyGet_cons_pos _ _ _ (by omega : (0 : Int) < (i : Int) - (j : Int))]
      have he : (i : Int) - (j : Int) - 1 = (i : Int) - ((j : Int) + 1) := by ring
      rw [he]
      have hc : ((j + 1 : Nat) : Int) = (j : Int) + 1 := by push_cast; ring
      rw [← hc]
      exact h3

/-- Every MCQ list stored in the seed catalog has at most two entries. -/
theorem alistGet_SEED_MCQS_bound (key : String × Int) (items : List McqSeed)
    (h : alistGet SEED_MCQS key = some items) : items.length ≤ 2 := by
  unfold alistGet at h
  cases hf : SEED_MCQS.find? (fun p => p.1 == key) with
  | none => rw [hf] at h; cases h
  | some p =>
    rw [hf] at h
    injection h with h
    subst h
    have hp := List.mem_of_find?_eq_some hf
    simp only [SEED_MCQS, List.mem_cons, List.not_mem_nil, or_false] at hp
    rcases hp with rfl | rfl <;> decide

/-- A member of a synthesized MCQ list carries a minted id and the seed
entry's fields. -/
theorem synthMcqs_mem {cid : List Char} {items : List McqSeed} {m : McqOut}
    (h : m ∈ synthMcqs cid items) :
    ∃ (i : Nat) (mseed : McqSeed), (i, mseed) ∈ enumFrom 1 items
      ∧ m = ⟨cid ++ chars "-q" ++ natChars i, cid, mseed.question, mseed.options,
             mseed.answer_index⟩ := by
  unfold synthMcqs at h
  rcases List.mem_map.mp h with ⟨p, hp, rfl⟩
  exact ⟨p.1, p.2, hp, rfl⟩

/-- A successful chapter-id decode decomposes into its component steps. -/
theorem pureChapterDecode_elim {cat : Catalog} {cid : List Char} {subj : SubjSeed} {num : Int}
    (h : pureChapterDecode cat cid = some (subj, num)) :
    ∃ sid ns k, splitDash1 cid = some (sid, ns) ∧ pyInt sid = some k
      ∧ pyInt ns = some num ∧ pyGet (mh12 cat) (k - 1) = some subj := by
  rw [pureChapterDecode] at h
  cases hs : splitDash1 cid with
  | none => rw [hs] at h; cases h
  | some sp =>
    obtain ⟨sid0, ns0⟩ := sp
    rw [hs] at h
    have h2 : (match pyInt sid0 with
               | none => none
               | some k =>
                 match pyInt ns0 with
                 | none => none
                 | some num =>
                   match pyGet (mh12 cat) (k - 1) with
                   | none => none
                   | some subj => some (subj, num)) = some (subj, num) := h
    cases hk : pyInt sid0 with
    | none => rw [hk] at h2; cases h2
    | some k =>
      rw [hk] at h2
      have h3 : (match pyInt ns0 with
                 | none => none
                 | some num =>
                   match pyGet (mh12 cat) (k - 1) with
                   | none => none
                   | some subj => some (subj, num)) = some (subj, num) := h2
      cases hn : pyInt ns0 with
      | none => rw [hn] at h3; cases h3
      | some num2 =>
        rw [hn] at h3
        have h4 : (match pyGet (mh12 cat) (k - 1) with
                   | none => none
                   | some subj => some (subj, num2)) = some (subj, num) := h3
        cases hg : pyGet (mh12 cat) (k - 1) with
        | none => rw [hg] at h4; cases h4
        | some subj2 =>
          rw [hg] at h4
          have h5 : (some (subj2, num2) : Option (SubjSeed × Int)) = some (subj, num) := h4
          injection h5 with h5
          obtain ⟨rfl, rfl⟩ := Prod.mk.injEq .. |>.mp h5
          exact ⟨sid0, ns0, k, rfl, hk, hn, hg⟩

/-- Checking a minted fallback MCQ id with no database: the answer is
compared against the seed entry located by re-decoding the chapter id. -/
theorem check_on_minted
    (cid sid ns : List Char) (k num : Int) (subj : SubjSeed)
    (items : List McqSeed) (i : Nat) (mseed : McqSeed) (a : Nat)
    (hsplit : splitDash1 cid = some (sid, ns))
    (hk : pyInt sid = some k) (hn : pyInt ns = some num)
    (hget : pyGet (mh12 seedCatalog) (k - 1) = some subj)
    (hitems : alistGet SEED_MCQS (subj.name, num) = some items)
    (hidx : pyGet items ((i : Int) - 1) = some mseed)
    (hQ : splitDashQ (natChars i) = [natChars i])
    (hPi : pyInt (natChars i) = some (i : Int)) :
    check_mcq_answer seedCatalog none cid (cid ++ chars "-q" ++ natChars i) a
      = .ok ((a : Int) == mseed.answer_index) := by
  obtain ⟨hcid, hnd⟩ := splitDash1_eq cid (sid, ns) hsplit
  have hq : 'q' ∉ cid := by
    rw [hcid]
    intro hx
    rcases List.mem_append.mp hx with hx | hx
    · exact pyInt_no_q hk hx
    · rcases List.mem_cons.mp hx with hx | hx
      · exact absurd hx (by decide)
      · exact pyInt_no_q hn hx
  have hpre : (cid ++ chars "-q").isPrefixOf (cid ++ chars "-q" ++ natChars i) = true :=
    isPrefixOf_append_self (cid ++ chars "-q") (natChars i)
  have hsq := splitDashQ_minted cid (natChars i) hq hQ
  have hlast : (splitDashQ (cid ++ chars "-q" ++ natChars i)).getLastD [] = natChars i := by
    rw [hsq]; rfl
  have hdec : pureChapterDecode seedCatalog cid = some (subj, num) := by
    rw [pureChapterDecode, hsplit]
    show (match pyInt sid with
          | none => none
          | some k =>
            match pyInt ns with
            | none => none
            | some num =>
              match pyGet (mh12 seedCatalog) (k - 1) with
              | none => none
              | some subj => some (subj, num)) = some (subj, num)
    rw [hk]
    show (match pyInt ns with
          | none => none
          | some num =>
            match pyGet (mh12 seedCatalog) (k - 1) with
            | none => none
            | some subj => some (subj, num)) = some (subj, num)
    rw [hn]
    show (match pyGet (mh12 seedCatalog) (k - 1) with
          | none => none
          | some subj => some (subj, num)) = some (subj, num)
    rw [hget]
  have hitems' : alistGet seedCatalog.mcqs (subj.name, num) = some items := hitems
  have hcsc : checkSeedCorrect seedCatalog cid ((i : Int) - 1) = some mseed.answer_index := by
    rw [checkSeedCorrect, hdec]
    show (match alistGet seedCatalog.mcqs (subj.name, num) with
          | none => none
          | some items => (pyGet items ((i : Int) - 1)).map (·.answer_index)) =
      some mseed.answer_index
    rw [hitems']
    show (pyGet items ((i : Int) - 1)).map (·.answer_index) = some mseed.answer_index
    rw [hidx]
    rfl
  show checkSeedBranch seedCatalog none cid (cid ++ chars "-q" ++ natChars i) a
      = .ok ((a : Int) == mseed.answer_index)
  rw [checkSeedBranch, if_pos hpre, hlast, hPi]
  show (match checkSeedCorrect seedCatalog cid ((i : Int) - 1) with
        | some correct => Except.ok ((a : Int) == correct)
        | none => checkSeedViaDb seedCatalog none cid ((i : Int) - 1) a) =
    Except.ok ((a : Int) == mseed.answer_index)
  rw [hcsc]

/-- C4: every MCQ produced by the pure fallback MCQ listing round-trips
through `check_mcq_answer`: submitting its own catalog `answer_index`
yields true, and submitting any other valid option position (when there
are at least two options) yields false. -/
theorem claim_C4 (chapter_id : List Char) (l : List McqOut) (m : McqOut)
    (hl : list_mcqs seedCatalog none chapter_id = .ok l) (hm : m ∈ l) :
    (∀ a : Nat, (a : Int) = m.answer_index →
      check_mcq_answer seedCatalog none chapter_id m.id a = .ok true)
    ∧ (∀ j : Nat, j < m.options.length → (j : Int) ≠ m.answer_index →
        2 ≤ m.options.length →
        check_mcq_answer seedCatalog none chapter_id m.id j = .ok false) := by
  have hfb : list_mcqs seedCatalog none chapter_id
      = .ok (mcqsPureFallback seedCatalog chapter_id) := rfl
  rw [hfb] at hl
  injection hl with hl
  subst hl
  have hm' : m ∈ (match pureChapterDecode seedCatalog chapter_id with
                  | none => []
                  | some r =>
                    synthMcqs chapter_id ((alistGet SEED_MCQS (r.1.name, r.2)).getD [])) := hm
  cases hdec : pureChapterDecode seedCatalog chapter_id with
  | none => rw [hdec] at hm'; cases hm'
  | some r =>
    obtain ⟨subj, num⟩ := r
    rw [hdec] at hm'
    have hm2 : m ∈ synthMcqs chapter_id ((alistGet SEED_MCQS (subj.name, num)).getD []) := hm'
    cases hal : alistGet SEED_MCQS (subj.name, num) with
    | none => rw [hal] at hm2; cases hm2
    | some items =>
      rw [hal] at hm2
      have hm3 : m ∈ synthMcqs chapter_id items := hm2
      obtain ⟨i, mseed, hin, rfl⟩ := synthMcqs_mem hm3
      obtain ⟨hj, hlt, hpg⟩ := enumFrom_pyGet items 1 i mseed hin
      have hlen := alistGet_SEED_MCQS_bound _ _ hal
      obtain ⟨sid, ns, k, hsp, hk, hn, hg⟩ := pureChapterDecode_elim hdec
      have hic : i ≤ 2 := by omega
      have hcheck : ∀ a : Nat,
          check_mcq_answer seedCatalog none chapter_id
            (chapter_id ++ chars "-q" ++ natChars i) a
            = .ok ((a : Int) == mseed.answer_index) := by
        intro a
        interval_cases i
        · exact check_on_minted chapter_id sid ns k num subj items 1 mseed a
            hsp hk hn hg hal hpg (by decide) (by decide)
        · exact check_on_minted chapter_id sid ns k num subj items 2 mseed a
            hsp hk hn hg hal hpg (by decide) (by decide)
      constructor
      · intro a ha
        rw [hcheck a]
        have hb : ((a : Int) == mseed.answer_index) = true := by
          simp only [beq_iff_eq]; exact ha
        rw [hb]
      · intro j _ hne _
        rw [hcheck j]
        have hb : ((j : Int) == mseed.answer_index) = false := by
          simp only [beq_eq_false_iff_ne, ne_eq]; exact hne
        rw [hb]

/-- C4 witness: the first fallback MCQ of chapter "1-1": submitting its
catalog answer index 1 yields true, submitting 0 yields false. -/
theorem claim_C4_witness :
    check_mcq_answer seedCatalog none (chars "1-1") (chars "1-1-q1") 1 = .ok true
    ∧ check_mcq_answer seedCatalog none (chars "1-1") (chars "1-1-q1") 0 = .ok false := by
  have h := claim_C4 (chars "1-1")
    (mcqsPureFallback seedCatalog (chars "1-1"))
    ⟨chars "1-1-q1", chars "1-1", "Microeconomics studies _____.",
     ["Aggregate demand", "Individual units", "National income", "General price level"], 1⟩
    rfl (by decide)
  exact ⟨h.1 1 (by decide), h.2 0 (by decide) (by decide) (by decide)⟩

-- ---------- Reconciler loop lemmas ----------

/-- `create_chapters` appends the minted chapter documents. -/
theorem create_chapters_eq :
    ∀ (l : List ChapSeed) (st : DBState) (sid : List Char),
      create_chapters st sid l
        = { st with chapters := st.chapters ++ chapDocsOf sid st.ctr l,
                    ctr := st.ctr + l.length } := by
  intro l
  induction l with
  | nil => intro st sid; simp [create_chapters, chapDocsOf]
  | cons x l ih =>
    intro st sid
    show create_chapters (create_chapter st sid x) sid l = _
    rw [ih]
    simp [create_chapter, chapDocsOf, List.append_assoc]
    omega

/-- `create_topics` appends the minted topic documents. -/
theorem create_topics_eq :
    ∀ (l : List TopicSeed) (st : DBState) (chId : List Char),
      create_topics st chId l
        = { st with topics := st.topics ++ topicDocsOf chId st.ctr l,
                    ctr := st.ctr + l.length } := by
  intro l
  induction l with
  | nil => intro st chId; simp [create_topics, topicDocsOf]
  | cons x l ih =>
    intro st chId
    show create_topics (create_topic st chId x) chId l = _
    rw [ih]
    simp [create_topic, topicDocsOf, List.append_assoc]
    omega

/-- `create_mcqs` appends the minted MCQ documents. -/
theorem create_mcqs_eq :
    ∀ (l : List McqSeed) (st : DBState) (chId : List Char),
      create_mcqs st chId l
        = { st with mcqs := st.mcqs ++ mcqDocsOf chId st.ctr l,
                    ctr := st.ctr + l.length } := by
  intro l
  induction l with
  | nil => intro st chId; simp [create_mcqs, mcqDocsOf]
  | cons x l ih =>
    intro st chId
    show create_mcqs (create_mcq_doc st chId x) chId l = _
    rw [ih]
    simp [create_mcq_doc, mcqDocsOf, List.append_assoc]
    omega

/-- Every minted chapter document belongs to the given subject. -/
theorem chapDocsOf_subject {sid : List Char} :
    ∀ (l : List ChapSeed) (c : Nat) (d : ChapterDoc),
      d ∈ chapDocsOf sid c l → d.subject_id = sid := by
  intro l
  induction l with
  | nil => intro c d h; cases h
  | cons x l ih =>
    intro c d h
    rcases List.mem_cons.mp h with rfl | h
    · rfl
    · exact ih (c + 1) d h

/-- Every catalog chapter is represented among the minted documents. -/
theorem chapDocsOf_covers {sid : List Char} :
    ∀ (l : List ChapSeed) (c : Nat) (ch : ChapSeed), ch ∈ l →
      ∃ d ∈ chapDocsOf sid c l, d.subject_id = sid ∧ d.number = ch.number
        ∧ d.title = ch.title := by
  intro l
  induction l with
  | nil => intro c ch h; cases h
  | cons x l ih =>
    intro c ch h
    rcases List.mem_cons.mp h with rfl | h
    · exact ⟨⟨mintId c, sid, ch.number, ch.title, ch.summary⟩,
        List.mem_cons_self _ _, rfl, rfl, rfl⟩
    · obtain ⟨d, hd, hp⟩ := ih (c + 1) ch h
      exact ⟨d, List.mem_cons_of_mem _ hd, hp⟩

/-- Every minted topic document belongs to the given chapter. -/
theorem topicDocsOf_chapter {chId : List Char} :
    ∀ (l : List TopicSeed) (c : Nat) (d : TopicDoc),
      d ∈ topicDocsOf chId c l → d.chapter_id = chId := by
  intro l
  induction l with
  | nil => intro c d h; cases h
  | cons x l ih =>
    intro c d h
    rcases List.mem_cons.mp h with rfl | h
    · rfl
    · exact ih (c + 1) d h

/-- Every minted MCQ document belongs to the given chapter. -/
theorem mcqDocsOf_chapter {chId : List Char} :
    ∀ (l : List McqSeed) (c : Nat) (d : McqDoc),
      d ∈ mcqDocsOf chId c l → d.chapter_id = chId := by
  intro l
  induction l with
  | nil => intro c d h; cases h
  | cons x l ih =>
    intro c d h
    rcases List.mem_cons.mp h with rfl | h
    · rfl
    · exact ih (c + 1) d h

/-- Step equation of the chapter-seed loop when the subject is unmapped. -/
theorem chapLoop_cons_none {m : IdMap} {p : String × List ChapSeed}
    {rest : List (String × List ChapSeed)} {st : DBState} (hm : m p.1 = none) :
    chapLoop m (p :: rest) st = chapLoop m rest st := by
  show (match m p.1 with
        | none => chapLoop m rest st
        | some sid =>
          if sid.isEmpty then chapLoop m rest st
          else if (st.chapters.filter (fun d : ChapterDoc => d.subject_id == sid)).isEmpty then
            chapLoop m rest (create_chapters st sid p.2)
          else chapLoop m rest st) = chapLoop m rest st
  rw [hm]

/-- Step equation of the chapter-seed loop when the subject is mapped. -/
theorem chapLoop_cons_some {m : IdMap} {p : String × List ChapSeed}
    {rest : List (String × List ChapSeed)} {st : DBState} {sid : List Char}
    (hm : m p.1 = some sid) :
    chapLoop m (p :: rest) st =
      (if sid.isEmpty then chapLoop m rest st
       else if (st.chapters.filter (fun d : ChapterDoc => d.subject_id == sid)).isEmpty then
         chapLoop m rest (create_chapters st sid p.2)
       else chapLoop m rest st) := by
  show (match m p.1 with
        | none => chapLoop m rest st
        | some sid =>
          if sid.isEmpty then chapLoop m rest st
          else if (st.chapters.filter (fun d : ChapterDoc => d.subject_id == sid)).isEmpty then
            chapLoop m rest (create_chapters st sid p.2)
          else chapLoop m rest st) = _
  rw [hm]

/-- Step equation of the topic-seed loop when the subject is unmapped. -/
theorem topicLoop_cons_none {m : IdMap} {p : (String × Int) × List TopicSeed}
    {rest : List ((String × Int) × List TopicSeed)} {st : DBState}
    (hm : m p.1.1 = none) :
    topicLoop m (p :: rest) st = topicLoop m rest st := by
  show (match m p.1.1 with
        | none => topicLoop m rest st
        | some sid =>
          if sid.isEmpty then topicLoop m rest st
          else
            match st.chapters.filter (fun d : ChapterDoc => d.subject_id == sid && d.number == p.1.2) with
            | [] => topicLoop m rest st
            | ch :: _ =>
              if (st.topics.filter (fun t : TopicDoc => t.chapter_id == ch.oid)).isEmpty then
                topicLoop m rest (create_topics st ch.oid p.2)
              else topicLoop m rest st) = topicLoop m rest st
  rw [hm]

/-- Step equation of the topic-seed loop when the subject is mapped. -/
theorem topicLoop_cons_some {m : IdMap} {p : (String × Int) × List TopicSeed}
    {rest : List ((String × Int) × List TopicSeed)} {st : DBState} {sid : List Char}
    (hm : m p.1.1 = some sid) :
    topicLoop m (p :: rest) st =
      (if sid.isEmpty then topicLoop m rest st
       else
         match st.chapters.filter (fun d : ChapterDoc => d.subject_id == sid && d.number == p.1.2) with
         | [] => topicLoop m rest st
         | ch :: _ =>
           if (st.topics.filter (fun t : TopicDoc => t.chapter_id == ch.oid)).isEmpty then
             topicLoop m rest (create_topics st ch.oid p.2)
           else topicLoop m rest st) := by
  show (match m p.1.1 with
        | none => topicLoop m rest st
        | some sid =>
          if sid.isEmpty then topicLoop m rest st
          else
            match st.chapters.filter (fun d : ChapterDoc => d.subject_id == sid && d.number == p.1.2) with
            | [] => topicLoop m rest st
            | ch :: _ =>
              if (st.topics.filter (fun t : TopicDoc => t.chapter_id == ch.oid)).isEmpty then
                topicLoop m rest (create_topics st ch.oid p.2)
              else topicLoop m rest st) = _
  rw [hm]

/-- Step equation of the MCQ-seed loop when the subject is unmapped. -/
theorem mcqLoop_cons_none {m : IdMap} {p : (String × Int) × List McqSeed}
    {rest : List ((String × Int) × List McqSeed)} {st : DBState}
    (hm : m p.1.1 = none) :
    mcqLoop m (p :: rest) st = mcqLoop m rest st := by
  show (match m p.1.1 with
        | none => mcqLoop m rest st
        | some sid =>
          if sid.isEmpty then mcqLoop m rest st
          else
            match st.chapters.filter (fun d : ChapterDoc => d.subject_id == sid && d.number == p.1.2) with
            | [] => mcqLoop m rest st
            | ch :: _ =>
              if (st.mcqs.filter (fun q : McqDoc => q.chapter_id == ch.oid)).isEmpty then
                mcqLoop m rest (create_mcqs st ch.oid p.2)
              else mcqLoop m rest st) = mcqLoop m rest st
  rw [hm]

/-- Step equation of the MCQ-seed loop when the subject is mapped. -/
theorem mcqLoop_cons_some {m : IdMap} {p : (String × Int) × List McqSeed}
    {rest : List ((String × Int) × List McqSeed)} {st : DBState} {sid : List Char}
    (hm : m p.1.1 = some sid) :
    mcqLoop m (p :: rest) st =
      (if sid.isEmpty then mcqLoop m rest st
       else
         match st.chapters.filter (fun d : ChapterDoc => d.subject_id == sid && d.number == p.1.2) with
         | [] => mcqLoop m rest st
         | ch :: _ =>
           if (st.mcqs.filter (fun q : McqDoc => q.chapter_id == ch.oid)).isEmpty then
             mcqLoop m rest (create_mcqs st ch.oid p.2)
           else mcqLoop m rest st) := by
  show (match m p.1.1 with
        | none => mcqLoop m rest st
        | some sid =>
          if sid.isEmpty then mcqLoop m rest st
          else
            match st.chapters.filter (fun d : ChapterDoc => d.subject_id == sid && d.number == p.1.2) with
            | [] => mcqLoop m rest st
            | ch :: _ =>
              if (st.mcqs.filter (fun q : McqDoc => q.chapter_id == ch.oid)).isEmpty then
                mcqLoop m rest (create_mcqs st ch.oid p.2)
              else mcqLoop m rest st) = _
  rw [hm]

/-- A Boolean that is not true is false. -/
theorem bool_eq_false {b : Bool} (h : ¬b = true) : b = false := by
  cases b
  · rfl
  · exact absurd rfl h

/-- A nonempty filter stays nonempty after appending documents. -/
theorem filter_append_isEmpty_false {α : Type} {p : α → Bool} {l A : List α}
    (h : (l.filter p).isEmpty = false) : ((l ++ A).filter p).isEmpty = false := by
  rw [List.filter_append]
  cases hf : l.filter p with
  | nil => rw [hf] at h; cases h
  | cons x xs => rfl

/-- Step equation of the topic-seed loop: mapped subject, no matching
chapter document. -/
theorem topicLoop_cons_mapped_nil {m : IdMap} {p : (String × Int) × List TopicSeed}
    {rest : List ((String × Int) × List TopicSeed)} {st : DBState} {sid : List Char}
    (hm : m p.1.1 = some sid) (h1 : sid.isEmpty = false)
    (hf : st.chapters.filter (fun d : ChapterDoc => d.subject_id == sid && d.number == p.1.2)
      = []) :
    topicLoop m (p :: rest) st = topicLoop m rest st := by
  rw [topicLoop_cons_some hm, if_neg (by simp [h1]), hf]

/-- Step equation of the topic-seed loop: mapped subject with a matching
chapter document. -/
theorem topicLoop_cons_mapped_cons {m : IdMap} {p : (String × Int) × List TopicSeed}
    {rest : List ((String × Int) × List TopicSeed)} {st : DBState} {sid : List Char}
    {ch : ChapterDoc} {l : List ChapterDoc}
    (hm : m p.1.1 = some sid) (h1 : sid.isEmpty = false)
    (hf : st.chapters.filter (fun d : ChapterDoc => d.subject_id == sid && d.number == p.1.2)
      = ch :: l) :
    topicLoop m (p :: rest) st =
      (if (st.topics.filter (fun t : TopicDoc => t.chapter_id == ch.oid)).isEmpty then
         topicLoop m rest (create_topics st ch.oid p.2)
       else topicLoop m rest st) := by
  rw [topicLoop_cons_some hm, if_neg (by simp [h1]), hf]

/-- Step equation of the MCQ-seed loop: mapped subject, no matching chapter
document. -/
theorem mcqLoop_cons_mapped_nil {m : IdMap} {p : (String × Int) × List McqSeed}
    {rest : List ((String × Int) × List McqSeed)} {st : DBState} {sid : List Char}
    (hm : m p.1.1 = some sid) (h1 : sid.isEmpty = false)
    (hf : st.chapters.filter (fun d : ChapterDoc => d.subject_id == sid && d.number == p.1.2)
      = []) :
    mcqLoop m (p :: rest) st = mcqLoop m rest st := by
  rw [mcqLoop_cons_some hm, if_neg (by simp [h1]), hf]

/-- Step equation of the MCQ-seed loop: mapped subject with a matching
chapter document. -/
theorem mcqLoop_cons_mapped_cons {m : IdMap} {p : (String × Int) × List McqSeed}
    {rest : List ((String × Int) × List McqSeed)} {st : DBState} {sid : List Char}
    {ch : ChapterDoc} {l : List ChapterDoc}
    (hm : m p.1.1 = some sid) (h1 : sid.isEmpty = false)
    (hf : st.chapters.filter (fun d : ChapterDoc => d.subject_id == sid && d.number == p.1.2)
      = ch :: l) :
    mcqLoop m (p :: rest) st =
      (if (st.mcqs.filter (fun q : McqDoc => q.chapter_id == ch.oid)).isEmpty then
         mcqLoop m rest (create_mcqs st ch.oid p.2)
       else mcqLoop m rest st) := by
  rw [mcqLoop_cons_some hm, if_neg (by simp [h1]), hf]

/-- A member satisfying the predicate makes the filter nonempty. -/
theorem filter_isEmpty_false_of_mem {α : Type} {p : α → Bool} {l : List α} {x : α}
    (hx : x ∈ l) (hp : p x = true) : (l.filter p).isEmpty = false := by
  cases hf : l.filter p with
  | nil =>
    have : x ∈ l.filter p := List.mem_filter.mpr ⟨hx, hp⟩
    rw [hf] at this
    cases this
  | cons y ys => rfl

/-- The chapter-seed loop only appends chapter documents (and advances the
id counter). -/
theorem chapLoop_shape (m : IdMap) :
    ∀ (cs : List (String × List ChapSeed)) (st : DBState),
      ∃ A c2, chapLoop m cs st = { st with chapters := st.chapters ++ A, ctr := c2 } := by
  intro cs
  induction cs with
  | nil =>
    intro st
    exact ⟨[], st.ctr, by simp [chapLoop]⟩
  | cons p rest ih =>
    intro st
    cases hm : m p.1 with
    | none => rw [chapLoop_cons_none hm]; exact ih st
    | some sid =>
      rw [chapLoop_cons_some hm]
      by_cases h1 : sid.isEmpty = true
      · rw [if_pos h1]; exact ih st
      · rw [if_neg h1]
        by_cases h2 : (st.chapters.filter (fun d => d.subject_id == sid)).isEmpty = true
        · rw [if_pos h2, create_chapters_eq]
          obtain ⟨A, c2, he⟩ := ih
            { st with chapters := st.chapters ++ chapDocsOf sid st.ctr p.2,
                      ctr := st.ctr + p.2.length }
          exact ⟨chapDocsOf sid st.ctr p.2 ++ A, c2, by rw [he]; simp [List.append_assoc]⟩
        · rw [if_neg h2]; exact ih st

/-- The topic-seed loop only appends topic documents. -/
theorem topicLoop_shape (m : IdMap) :
    ∀ (ts : List ((String × Int) × List TopicSeed)) (st : DBState),
      ∃ A c2, topicLoop m ts st = { st with topics := st.topics ++ A, ctr := c2 } := by
  intro ts
  induction ts with
  | nil =>
    intro st
    exact ⟨[], st.ctr, by simp [topicLoop]⟩
  | cons p rest ih =>
    intro st
    cases hm : m p.1.1 with
    | none => rw [topicLoop_cons_none hm]; exact ih st
    | some sid =>
      by_cases h1 : sid.isEmpty = true
      · rw [topicLoop_cons_some hm, if_pos h1]; exact ih st
      · cases hf : st.chapters.filter
            (fun d => d.subject_id == sid && d.number == p.1.2) with
        | nil => rw [topicLoop_cons_mapped_nil hm (bool_eq_false h1) hf]; exact ih st
        | cons ch l =>
          rw [topicLoop_cons_mapped_cons hm (bool_eq_false h1) hf]
          by_cases h2 : (st.topics.filter (fun t => t.chapter_id == ch.oid)).isEmpty = true
          · rw [if_pos h2, create_topics_eq]
            obtain ⟨A, c2, he⟩ := ih
              { st with topics := st.topics ++ topicDocsOf ch.oid st.ctr p.2,
                        ctr := st.ctr + p.2.length }
            exact ⟨topicDocsOf ch.oid st.ctr p.2 ++ A, c2, by rw [he]; simp [List.append_assoc]⟩
          · rw [if_neg h2]; exact ih st

/-- The MCQ-seed loop only appends MCQ documents. -/
theorem mcqLoop_shape (m : IdMap) :
    ∀ (ms : List ((String × Int) × List McqSeed)) (st : DBState),
      ∃ A c2, mcqLoop m ms st = { st with mcqs := st.mcqs ++ A, ctr := c2 } := by
  intro ms
  induction ms with
  | nil =>
    intro st
    exact ⟨[], st.ctr, by simp [mcqLoop]⟩
  | cons p rest ih =>
    intro st
    cases hm : m p.1.1 with
    | none => rw [mcqLoop_cons_none hm]; exact ih st
    | some sid =>
      by_cases h1 : sid.isEmpty = true
      · rw [mcqLoop_cons_some hm, if_pos h1]; exact ih st
      · cases hf : st.chapters.filter
            (fun d => d.subject_id == sid && d.number == p.1.2) with
        | nil => rw [mcqLoop_cons_mapped_nil hm (bool_eq_false h1) hf]; exact ih st
        | cons ch l =>
          rw [mcqLoop_cons_mapped_cons hm (bool_eq_false h1) hf]
          by_cases h2 : (st.mcqs.filter (fun q => q.chapter_id == ch.oid)).isEmpty = true
          · rw [if_pos h2, create_mcqs_eq]
            obtain ⟨A, c2, he⟩ := ih
              { st with mcqs := st.mcqs ++ mcqDocsOf ch.oid st.ctr p.2,
                        ctr := st.ctr + p.2.length }
            exact ⟨mcqDocsOf ch.oid st.ctr p.2 ++ A, c2, by rw [he]; simp [List.append_assoc]⟩
          · rw [if_neg h2]; exact ih st

/-- On a state whose chapter seeding is settled, the chapter-seed loop is
the identity. -/
theorem chapLoop_id {m : IdMap} :
    ∀ {cs : List (String × List ChapSeed)} {st : DBState},
      ChapsSeeded m cs st → chapLoop m cs st = st := by
  intro cs
  induction cs with
  | nil => intro st _; rfl
  | cons p rest ih =>
    intro st h
    have hrest : ChapsSeeded m rest st := fun q hq => h q (List.mem_cons_of_mem _ hq)
    cases hm : m p.1 with
    | none => rw [chapLoop_cons_none hm]; exact ih hrest
    | some sid =>
      rw [chapLoop_cons_some hm]
      by_cases h1 : sid.isEmpty = true
      · rw [if_pos h1]; exact ih hrest
      · rw [if_neg h1]
        rcases h p (List.mem_cons_self _ _) sid hm (bool_eq_false h1) with hne | hempty
        · rw [if_neg (by rw [hne]; exact Bool.false_ne_true)]
          exact ih hrest
        · by_cases h2 : (st.chapters.filter (fun d => d.subject_id == sid)).isEmpty = true
          · rw [if_pos h2, hempty]
            exact ih hrest
          · rw [if_neg h2]; exact ih hrest

/-- On a state whose topic seeding is settled, the topic-seed loop is the
identity. -/
theorem topicLoop_id {m : IdMap} :
    ∀ {ts : List ((String × Int) × List TopicSeed)} {st : DBState},
      TopicsSeeded m ts st → topicLoop m ts st = st := by
  intro ts
  induction ts with
  | nil => intro st _; rfl
  | cons p rest ih =>
    intro st h
    have hrest : TopicsSeeded m rest st := fun q hq => h q (List.mem_cons_of_mem _ hq)
    cases hm : m p.1.1 with
    | none => rw [topicLoop_cons_none hm]; exact ih hrest
    | some sid =>
      by_cases h1 : sid.isEmpty = true
      · rw [topicLoop_cons_some hm, if_pos h1]; exact ih hrest
      · cases hf : st.chapters.filter
            (fun d => d.subject_id == sid && d.number == p.1.2) with
        | nil => rw [topicLoop_cons_mapped_nil hm (bool_eq_false h1) hf]; exact ih hrest
        | cons ch l =>
          rw [topicLoop_cons_mapped_cons hm (bool_eq_false h1) hf]
          rcases h p (List.mem_cons_self _ _) sid hm (bool_eq_false h1) ch l hf with
            hne | hempty
          · rw [if_neg (by rw [hne]; exact Bool.false_ne_true)]
            exact ih hrest
          · by_cases h2 : (st.topics.filter (fun t => t.chapter_id == ch.oid)).isEmpty = true
            · rw [if_pos h2, hempty]
              exact ih hrest
            · rw [if_neg h2]; exact ih hrest

/-- On a state whose MCQ seeding is settled, the MCQ-seed loop is the
identity. -/
theorem mcqLoop_id {m : IdMap} :
    ∀ {ms : List ((String × Int) × List McqSeed)} {st : DBState},
      McqsSeeded m ms st → mcqLoop m ms st = st := by
  intro ms
  induction ms with
  | nil => intro st _; rfl
  | cons p rest ih =>
    intro st h
    have hrest : McqsSeeded m rest st := fun q hq => h q (List.mem_cons_of_mem _ hq)
    cases hm : m p.1.1 with
    | none => rw [mcqLoop_cons_none hm]; exact ih hrest
    | some sid =>
      by_cases h1 : sid.isEmpty = true
      · rw [mcqLoop_cons_some hm, if_pos h1]; exact ih hrest
      · cases hf : st.chapters.filter
            (fun d => d.subject_id == sid && d.number == p.1.2) with
        | nil => rw [mcqLoop_cons_mapped_nil hm (bool_eq_false h1) hf]; exact ih hrest
        | cons ch l =>
          rw [mcqLoop_cons_mapped_cons hm (bool_eq_false h1) hf]
          rcases h p (List.mem_cons_self _ _) sid hm (bool_eq_false h1) ch l hf with
            hne | hempty
          · rw [if_neg (by rw [hne]; exact Bool.false_ne_true)]
            exact ih hrest
          · by_cases h2 : (st.mcqs.filter (fun q => q.chapter_id == ch.oid)).isEmpty = true
            · rw [if_pos h2, hempty]
              exact ih hrest
            · rw [if_neg h2]; exact ih hrest

/-- After the chapter-seed loop runs, chapter seeding is settled for every
processed catalog entry. -/
theorem chapLoop_post (m : IdMap) :
    ∀ (cs : List (String × List ChapSeed)) (st : DBState),
      ChapsSeeded m cs (chapLoop m cs st) := by
  intro cs
  induction cs with
  | nil => intro st q hq; cases hq
  | cons p rest ih =>
    intro st
    cases hm : m p.1 with
    | none =>
      rw [chapLoop_cons_none hm]
      intro q hq sid hms hsid
      rcases List.mem_cons.mp hq with rfl | hq2
      · rw [hm] at hms; cases hms
      · exact ih st q hq2 sid hms hsid
    | some sid0 =>
      by_cases h1 : sid0.isEmpty = true
      · rw [chapLoop_cons_some hm, if_pos h1]
        intro q hq sid hms hsid
        rcases List.mem_cons.mp hq with rfl | hq2
        · rw [hm] at hms
          injection hms with hms
          rw [hms] at h1
          rw [hsid] at h1
          cases h1
        · exact ih st q hq2 sid hms hsid
      · by_cases h2 : (st.chapters.filter (fun d => d.subject_id == sid0)).isEmpty = true
        · rw [chapLoop_cons_some hm, if_neg h1, if_pos h2]
          intro q hq sid hms hsid
          rcases List.mem_cons.mp hq with rfl | hq2
          · rw [hm] at hms
            injection hms with hms
            subst hms
            cases hp2 : q.2 with
            | nil => exact Or.inr rfl
            | cons c cs2 =>
              left
              obtain ⟨A, c2, he⟩ := chapLoop_shape m rest (create_chapters st sid0 (c :: cs2))
              refine filter_isEmpty_false_of_mem
                (x := ⟨mintId st.ctr, sid0, c.number, c.title, c.summary⟩) ?_ (by simp)
              rw [he]
              show _ ∈ (create_chapters st sid0 (c :: cs2)).chapters ++ A
              apply List.mem_append_left
              rw [create_chapters_eq]
              show _ ∈ st.chapters ++ chapDocsOf sid0 st.ctr (c :: cs2)
              apply List.mem_append_right
              exact List.mem_cons_self _ _
          · exact ih (create_chapters st sid0 p.2) q hq2 sid hms hsid
        · rw [chapLoop_cons_some hm, if_neg h1, if_neg h2]
          intro q hq sid hms hsid
          rcases List.mem_cons.mp hq with rfl | hq2
          · rw [hm] at hms
            injection hms with hms
            subst hms
            left
            obtain ⟨A, c2, he⟩ := chapLoop_shape m rest st
            rw [he]
            show ((st.chapters ++ A).filter (fun d => d.subject_id == sid0)).isEmpty = false
            exact filter_append_isEmpty_false (bool_eq_false h2)
          · exact ih st q hq2 sid hms hsid

/-- After the topic-seed loop runs, topic seeding is settled for every
processed catalog entry. -/
theorem topicLoop_post (m : IdMap) :
    ∀ (ts : List ((String × Int) × List TopicSeed)) (st : DBState),
      TopicsSeeded m ts (topicLoop m ts st) := by
  intro ts
  induction ts with
  | nil => intro st q hq; cases hq
  | cons p rest ih =>
    intro st
    cases hm : m p.1.1 with
    | none =>
      rw [topicLoop_cons_none hm]
      intro q hq sid hms hsid
      rcases List.mem_cons.mp hq with rfl | hq2
      · rw [hm] at hms; cases hms
      · exact ih st q hq2 sid hms hsid
    | some sid0 =>
      by_cases h1 : sid0.isEmpty = true
      · rw [topicLoop_cons_some hm, if_pos h1]
        intro q hq sid hms hsid
        rcases List.mem_cons.mp hq with rfl | hq2
        · rw [hm] at hms
          injection hms with hms
          rw [hms] at h1
          rw [hsid] at h1
          cases h1
        · exact ih st q hq2 sid hms hsid
      · cases hf : st.chapters.filter
            (fun d => d.subject_id == sid0 && d.number == p.1.2) with
        | nil =>
          rw [topicLoop_cons_mapped_nil hm (bool_eq_false h1) hf]
          intro q hq sid hms hsid
          rcases List.mem_cons.mp hq with rfl | hq2
          · rw [hm] at hms
            injection hms with hms
            subst hms
            intro ch' l' hcl
            obtain ⟨A, c2, he⟩ := topicLoop_shape m rest st
            rw [he] at hcl
            rw [show ({ st with topics := st.topics ++ A, ctr := c2 } : DBState).chapters
                  = st.chapters from rfl] at hcl
            rw [hf] at hcl
            cases hcl
          · exact ih st q hq2 sid hms hsid
        | cons ch l =>
          rw [topicLoop_cons_mapped_cons hm (bool_eq_false h1) hf]
          by_cases h2 : (st.topics.filter (fun t => t.chapter_id == ch.oid)).isEmpty = true
          · rw [if_pos h2]
            intro q hq sid hms hsid
            rcases List.mem_cons.mp hq with rfl | hq2
            · rw [hm] at hms
              injection hms with hms
              subst hms
              intro ch' l' hcl
              obtain ⟨A, c2, he⟩ := topicLoop_shape m rest (create_topics st ch.oid q.2)
              have hchf : (topicLoop m rest (create_topics st ch.oid q.2)).chapters
                  = st.chapters := by
                rw [he, create_topics_eq]
              rw [hchf, hf] at hcl
              injection hcl with hc1 hc2
              subst hc1
              cases hp2 : q.2 with
              | nil => exact Or.inr rfl
              | cons t ts2 =>
                left
                rw [hp2] at he
                refine filter_isEmpty_false_of_mem
                  (x := ⟨mintId st.ctr, ch.oid, t.title, t.content⟩) ?_ (by simp)
                rw [he]
                show _ ∈ (create_topics st ch.oid (t :: ts2)).topics ++ A
                apply List.mem_append_left
                rw [create_topics_eq]
                show _ ∈ st.topics ++ topicDocsOf ch.oid st.ctr (t :: ts2)
                apply List.mem_append_right
                exact List.mem_cons_self _ _
            · exact ih (create_topics st ch.oid p.2) q hq2 sid hms hsid
          · rw [if_neg h2]
            intro q hq sid hms hsid
            rcases List.mem_cons.mp hq with rfl | hq2
            · rw [hm] at hms
              injection hms with hms
              subst hms
              intro ch' l' hcl
              obtain ⟨A, c2, he⟩ := topicLoop_shape m rest st
              have hchf : (topicLoop m rest st).chapters = st.chapters := by rw [he]
              rw [hchf, hf] at hcl
              injection hcl with hc1 hc2
              subst hc1
              left
              rw [he]
              show ((st.topics ++ A).filter (fun t => t.chapter_id == ch.oid)).isEmpty = false
              exact filter_append_isEmpty_false (bool_eq_false h2)
            · exact ih st q hq2 sid hms hsid

/-- After the MCQ-seed loop runs, MCQ seeding is settled for every
processed catalog entry. -/
theorem mcqLoop_post (m : IdMap) :
    ∀ (ms : List ((String × Int) × List McqSeed)) (st : DBState),
      McqsSeeded m ms (mcqLoop m ms st) := by
  intro ms
  induction ms with
  | nil => intro st q hq; cases hq
  | cons p rest ih =>
    intro st
    cases hm : m p.1.1 with
    | none =>
      rw [mcqLoop_cons_none hm]
      intro q hq sid hms hsid
      rcases List.mem_cons.mp hq with rfl | hq2
      · rw [hm] at hms; cases hms
      · exact ih st q hq2 sid hms hsid
    | some sid0 =>
      by_cases h1 : sid0.isEmpty = true
      · rw [mcqLoop_cons_some hm, if_pos h1]
        intro q hq sid hms hsid
        rcases List.mem_cons.mp hq with rfl | hq2
        · rw [hm] at hms
          injection hms with hms
          rw [hms] at h1
          rw [hsid] at h1
          cases h1
        · exact ih st q hq2 sid hms hsid
      · cases hf : st.chapters.filter
            (fun d => d.subject_id == sid0 && d.number == p.1.2) with
        | nil =>
          rw [mcqLoop_cons_mapped_nil hm (bool_eq_false h1) hf]
          intro q hq sid hms hsid
          rcases List.mem_cons.mp hq with rfl | hq2
          · rw [hm] at hms
            injection hms with hms
            subst hms
            intro ch' l' hcl
            obtain ⟨A, c2, he⟩ := mcqLoop_shape m rest st
            rw [he] at hcl
            rw [show ({ st with mcqs := st.mcqs ++ A, ctr := c2 } : DBState).chapters
                  = st.chapters from rfl] at hcl
            rw [hf] at hcl
            cases hcl
          · exact ih st q hq2 sid hms hsid
        | cons ch l =>
          rw [mcqLoop_cons_mapped_cons hm (bool_eq_false h1) hf]
          by_cases h2 : (st.mcqs.filter (fun q => q.chapter_id == ch.oid)).isEmpty = true
          · rw [if_pos h2]
            intro q hq sid hms hsid
            rcases List.mem_cons.mp hq with rfl | hq2
            · rw [hm] at hms
              injection hms with hms
              subst hms
              intro ch' l' hcl
              obtain ⟨A, c2, he⟩ := mcqLoop_shape m rest (create_mcqs st ch.oid q.2)
              have hchf : (mcqLoop m rest (create_mcqs st ch.oid q.2)).chapters
                  = st.chapters := by
                rw [he, create_mcqs_eq]
              rw [hchf, hf] at hcl
              injection hcl with hc1 hc2
              subst hc1
              cases hp2 : q.2 with
              | nil => exact Or.inr rfl
              | cons x xs2 =>
                left
                rw [hp2] at he
                refine filter_isEmpty_false_of_mem
                  (x := ⟨mintId st.ctr, ch.oid, x.question, x.options, x.answer_index⟩)
                  ?_ (by simp)
                rw [he]
                show _ ∈ (create_mcqs st ch.oid (x :: xs2)).mcqs ++ A
                apply List.mem_append_left
                rw [create_mcqs_eq]
                show _ ∈ st.mcqs ++ mcqDocsOf ch.oid st.ctr (x :: xs2)
                apply List.mem_append_right
                exact List.mem_cons_self _ _
            · exact ih (create_mcqs st ch.oid p.2) q hq2 sid hms hsid
          · rw [if_neg h2]
            intro q hq sid hms hsid
            rcases List.mem_cons.mp hq with rfl | hq2
            · rw [hm] at hms
              injection hms with hms
              subst hms
              intro ch' l' hcl
              obtain ⟨A, c2, he⟩ := mcqLoop_shape m rest st
              have hchf : (mcqLoop m rest st).chapters = st.chapters := by rw [he]
              rw [hchf, hf] at hcl
              injection hcl with hc1 hc2
              subst hc1
              left
              rw [he]
              show ((st.mcqs ++ A).filter (fun q => q.chapter_id == ch.oid)).isEmpty = false
              exact filter_append_isEmpty_false (bool_eq_false h2)
            · exact ih st q hq2 sid hms hsid

/-- Step equation of the subject-seed loop. -/
theorem subjLoop_cons (b s : String) (names : List String) (x : SubjSeed)
    (rest : List SubjSeed) (st : DBState) (m : IdMap) :
    subjLoop b s names (x :: rest) (st, m)
      = if x.board == b && x.standard == s && !(names.contains x.name) then
          subjLoop b s names rest
            ((create_subject st x).2, updMap m x.name (create_subject st x).1)
        else subjLoop b s names rest (st, m) := rfl

/-- The subject-seed loop appends exactly the documents described by
`createdDocs` and threads their (name, id) pairs into the id map. -/
theorem subjLoop_eq (b s : String) (names : List String) :
    ∀ (subs : List SubjSeed) (st : DBState) (m : IdMap),
      subjLoop b s names subs (st, m)
        = ({ st with
              subjects := st.subjects ++ createdDocs b s names st.ctr subs,
              ctr := st.ctr + (createdDocs b s names st.ctr subs).length },
           (createdDocs b s names st.ctr subs).foldl
             (fun m d => updMap m d.name d.oid) m) := by
  intro subs
  induction subs with
  | nil => intro st m; simp [subjLoop, createdDocs]
  | cons x rest ih =>
    intro st m
    rw [subjLoop_cons]
    by_cases hc : (x.board == b && x.standard == s && !(names.contains x.name)) = true
    · rw [if_pos hc]
      rw [show createdDocs b s names st.ctr (x :: rest)
            = subjDocOf x (mintId st.ctr) :: createdDocs b s names (st.ctr + 1) rest from
          by rw [createdDocs, if_pos hc]]
      rw [show (create_subject st x).2
            = { st with subjects := st.subjects ++ [subjDocOf x (mintId st.ctr)],
                        ctr := st.ctr + 1 } from rfl]
      rw [ih]
      refine Prod.ext ?_ rfl
      · simp [List.append_assoc]
        omega
    · rw [if_neg hc]
      rw [show createdDocs b s names st.ctr (x :: rest)
            = createdDocs b s names st.ctr rest from by rw [createdDocs, if_neg hc]]
      exact ih st m

/-- Every document inserted by the subject-seed loop matches the requested
board and standard. -/
theorem createdDocs_all_match {b s : String} {names : List String} :
    ∀ (subs : List SubjSeed) (c : Nat) (d : SubjectDoc),
      d ∈ createdDocs b s names c subs → (d.board == b && d.standard == s) = true := by
  intro subs
  induction subs with
  | nil => intro c d h; cases h
  | cons x rest ih =>
    intro c d h
    rw [createdDocs] at h
    by_cases hc : (x.board == b && x.standard == s && !(names.contains x.name)) = true
    · rw [if_pos hc] at h
      rcases List.mem_cons.mp h with rfl | h2
      · rcases Bool.and_eq_true .. |>.mp hc with ⟨hb, -⟩
        exact hb
      · exact ih (c + 1) d h2
    · rw [if_neg hc] at h
      exact ih c d h

/-- A matching catalog subject whose name is new is represented among the
inserted documents. -/
theorem createdDocs_covers {b s : String} {names : List String} :
    ∀ (subs : List SubjSeed) (c : Nat) (x : SubjSeed), x ∈ subs →
      (x.board == b && x.standard == s) = true → names.contains x.name = false →
      x.name ∈ (createdDocs b s names c subs).map (·.name) := by
  intro subs
  induction subs with
  | nil => intro c x h; cases h
  | cons y rest ih =>
    intro c x hx hmatch hcont
    rw [createdDocs]
    rcases List.mem_cons.mp hx with rfl | hx2
    · have hc : (x.board == b && x.standard == s && !(names.contains x.name)) = true := by
        rw [hmatch, hcont]
        rfl
      rw [if_pos hc]
      exact List.mem_cons_self _ _
    · by_cases hc : (y.board == b && y.standard == s && !(names.contains y.name)) = true
      · rw [if_pos hc]
        exact List.mem_cons_of_mem _ (ih (c + 1) x hx2 hmatch hcont)
      · rw [if_neg hc]
        exact ih c x hx2 hmatch hcont

/-- When every matching catalog subject is already present by name, the
subject-seed loop writes nothing. -/
theorem subjLoop_id {b s : String} {names : List String} :
    ∀ (subs : List SubjSeed) (st : DBState) (m : IdMap),
      (∀ x ∈ subs, (x.board == b && x.standard == s) = true →
        names.contains x.name = true) →
      subjLoop b s names subs (st, m) = (st, m) := by
  intro subs
  induction subs with
  | nil => intro st m _; rfl
  | cons x rest ih =>
    intro st m h
    rw [subjLoop_cons]
    have hc : (x.board == b && x.standard == s && !(names.contains x.name)) = false := by
      by_cases hmatch : (x.board == b && x.standard == s) = true
      · rw [h x (List.mem_cons_self _ _) hmatch, hmatch]
        rfl
      · rw [bool_eq_false hmatch]
        rfl
    rw [if_neg (by rw [hc]; exact Bool.false_ne_true)]
    exact ih st m (fun y hy => h y (List.mem_cons_of_mem _ hy))

/-- Building the id map over appended subjects threads the appended block
through the fold. -/
theorem idMapOf_append (A D : List SubjectDoc) :
    idMapOf (A ++ D) = D.foldl (fun m d => updMap m d.name d.oid) (idMapOf A) := by
  unfold idMapOf
  rw [List.foldl_append]

/-- The first reconciliation phase characterized by `createdDocs`. -/
theorem seedPhase1_eq (cat : Catalog) (b s : String) (st : DBState) :
    seedPhase1 cat b s st
      = ({ st with
            subjects := st.subjects
              ++ createdDocs b s ((existingFor b s st).map (·.name)) st.ctr cat.subjects,
            ctr := st.ctr
              + (createdDocs b s ((existingFor b s st).map (·.name)) st.ctr
                  cat.subjects).length },
         (createdDocs b s ((existingFor b s st).map (·.name)) st.ctr cat.subjects).foldl
           (fun m d => updMap m d.name d.oid) (idMapOf (existingFor b s st))) := by
  rw [seedPhase1, subjLoop_eq]

/-- The stored subjects after phase one: the previous ones plus the created
block. -/
theorem existingFor_after (cat : Catalog) (b s : String) (st : DBState) :
    existingFor b s (seedPhase1 cat b s st).1
      = existingFor b s st
        ++ createdDocs b s ((existingFor b s st).map (·.name)) st.ctr cat.subjects := by
  rw [seedPhase1_eq]
  show ((st.subjects
      ++ createdDocs b s ((existingFor b s st).map (·.name)) st.ctr cat.subjects).filter
        (fun d => d.board == b && d.standard == s)) = _
  rw [List.filter_append]
  congr 1
  exact List.filter_eq_self.mpr
    (fun d hd => createdDocs_all_match cat.subjects st.ctr d hd)

/-- The reconciler unfolded into its four phases. -/
theorem ensure_seed_def (cat : Catalog) (b s : String) (st : DBState) :
    ensure_seed cat b s st
      = mcqLoop (seedPhase1 cat b s st).2 cat.mcqs
          (topicLoop (seedPhase1 cat b s st).2 cat.topics
            (chapLoop (seedPhase1 cat b s st).2 cat.chapters
              (seedPhase1 cat b s st).1)) := rfl

/-- The reconciler leaves the subject collection as phase one left it. -/
theorem ensure_seed_subjects (cat : Catalog) (b s : String) (st : DBState) :
    (ensure_seed cat b s st).subjects = (seedPhase1 cat b s st).1.subjects := by
  rw [ensure_seed_def]
  obtain ⟨A1, c1, e1⟩ := chapLoop_shape (seedPhase1 cat b s st).2 cat.chapters
    (seedPhase1 cat b s st).1
  obtain ⟨A2, c2, e2⟩ := topicLoop_shape (seedPhase1 cat b s st).2 cat.topics
    (chapLoop (seedPhase1 cat b s st).2 cat.chapters (seedPhase1 cat b s st).1)
  obtain ⟨A3, c3, e3⟩ := mcqLoop_shape (seedPhase1 cat b s st).2 cat.mcqs
    (topicLoop (seedPhase1 cat b s st).2 cat.topics
      (chapLoop (seedPhase1 cat b s st).2 cat.chapters (seedPhase1 cat b s st).1))
  rw [e3, e2, e1]

/-- The reconciler leaves the chapter collection as the chapter loop left
it. -/
theorem ensure_seed_chapters (cat : Catalog) (b s : String) (st : DBState) :
    (ensure_seed cat b s st).chapters
      = (chapLoop (seedPhase1 cat b s st).2 cat.chapters
          (seedPhase1 cat b s st).1).chapters := by
  rw [ensure_seed_def]
  obtain ⟨A2, c2, e2⟩ := topicLoop_shape (seedPhase1 cat b s st).2 cat.topics
    (chapLoop (seedPhase1 cat b s st).2 cat.chapters (seedPhase1 cat b s st).1)
  obtain ⟨A3, c3, e3⟩ := mcqLoop_shape (seedPhase1 cat b s st).2 cat.mcqs
    (topicLoop (seedPhase1 cat b s st).2 cat.topics
      (chapLoop (seedPhase1 cat b s st).2 cat.chapters (seedPhase1 cat b s st).1))
  rw [e3, e2]

/-- The reconciler leaves the topic collection as the topic loop left it. -/
theorem ensure_seed_topics (cat : Catalog) (b s : String) (st : DBState) :
    (ensure_seed cat b s st).topics
      = (topicLoop (seedPhase1 cat b s st).2 cat.topics
          (chapLoop (seedPhase1 cat b s st).2 cat.chapters
            (seedPhase1 cat b s st).1)).topics := by
  rw [ensure_seed_def]
  obtain ⟨A3, c3, e3⟩ := mcqLoop_shape (seedPhase1 cat b s st).2 cat.mcqs
    (topicLoop (seedPhase1 cat b s st).2 cat.topics
      (chapLoop (seedPhase1 cat b s st).2 cat.chapters (seedPhase1 cat b s st).1))
  rw [e3]

/-- After `ensure_seed` runs, every reconciliation check passes. -/
theorem stable_after (cat : Catalog) (b s : String) (st : DBState) :
    Stable cat b s (ensure_seed cat b s st) := by
  have hex : existingFor b s (ensure_seed cat b s st)
      = existingFor b s (seedPhase1 cat b s st).1 := by
    unfold existingFor
    rw [ensure_seed_subjects]
  have hmap : idMapOf (existingFor b s (ensure_seed cat b s st))
      = (seedPhase1 cat b s st).2 := by
    rw [hex, existingFor_after, idMapOf_append, seedPhase1_eq]
  refine ⟨?_, ?_, ?_, ?_⟩
  · intro x hx hmatch
    rw [hex, existingFor_after, List.map_append]
    refine List.elem_iff.mpr ?_
    by_cases hcont : ((existingFor b s st).map (fun d => d.name)).contains x.name = true
    · exact List.mem_append_left _ (List.elem_iff.mp hcont)
    · exact List.mem_append_right _
        (createdDocs_covers cat.subjects st.ctr x hx hmatch (bool_eq_false hcont))
  · rw [hmap]
    intro p hp sid hm' hsid
    rw [ensure_seed_chapters]
    exact chapLoop_post (seedPhase1 cat b s st).2 cat.chapters (seedPhase1 cat b s st).1
      p hp sid hm' hsid
  · rw [hmap]
    intro p hp sid hm' hsid ch l hcl
    rw [ensure_seed_chapters] at hcl
    obtain ⟨A2, c2, e2⟩ := topicLoop_shape (seedPhase1 cat b s st).2 cat.topics
      (chapLoop (seedPhase1 cat b s st).2 cat.chapters (seedPhase1 cat b s st).1)
    have hcl2 : ((topicLoop (seedPhase1 cat b s st).2 cat.topics
        (chapLoop (seedPhase1 cat b s st).2 cat.chapters
          (seedPhase1 cat b s st).1)).chapters.filter
        (fun d => d.subject_id == sid && d.number == p.1.2)) = ch :: l := by
      rw [e2]
      exact hcl
    rcases topicLoop_post (seedPhase1 cat b s st).2 cat.topics
        (chapLoop (seedPhase1 cat b s st).2 cat.chapters (seedPhase1 cat b s st).1)
        p hp sid hm' hsid ch l hcl2 with hne | he
    · left
      rw [ensure_seed_topics]
      exact hne
    · right
      exact he
  · rw [hmap]
    exact mcqLoop_post (seedPhase1 cat b s st).2 cat.mcqs
      (topicLoop (seedPhase1 cat b s st).2 cat.topics
        (chapLoop (seedPhase1 cat b s st).2 cat.chapters (seedPhase1 cat b s st).1))

/-- On a state where every reconciliation check passes, `ensure_seed`
performs zero writes. -/
theorem stable_ensure_id (cat : Catalog) (b s : String) (st : DBState)
    (h : Stable cat b s st) : ensure_seed cat b s st = st := by
  have hp : seedPhase1 cat b s st = (st, idMapOf (existingFor b s st)) := by
    rw [seedPhase1]
    exact subjLoop_id cat.subjects st (idMapOf (existingFor b s st)) h.1
  rw [ensure_seed_def, hp]
  rw [show ((st, idMapOf (existingFor b s st)) : DBState × IdMap).2
        = idMapOf (existingFor b s st) from rfl,
      show ((st, idMapOf (existingFor b s st)) : DBState × IdMap).1 = st from rfl]
  rw [chapLoop_id h.2.1, topicLoop_id h.2.2.1, mcqLoop_id h.2.2.2]

/-- The chapter-seed loop creates the full catalog chapter set for a mapped
subject that has no chapters, provided no other processed entry shares its
id. -/
theorem chapLoop_creates {m : IdMap} :
    ∀ (cs : List (String × List ChapSeed)) (st : DBState) (name : String)
      (chs : List ChapSeed) (sid : List Char),
      (name, chs) ∈ cs → (cs.map Prod.fst).Nodup →
      m name = some sid → sid.isEmpty = false →
      (st.chapters.filter (fun d => d.subject_id == sid)).isEmpty = true →
      (∀ p ∈ cs, ∀ sid2, m p.1 = some sid2 → sid2 = sid → p.1 = name) →
      ∀ ch ∈ chs, ∃ d ∈ (chapLoop m cs st).chapters,
        d.subject_id = sid ∧ d.number = ch.number ∧ d.title = ch.title := by
  intro cs
  induction cs with
  | nil => intro st name chs sid hmem; cases hmem
  | cons p rest ih =>
    intro st name chs sid hmem hnd hm hsid hzero huniq ch hch
    rcases List.mem_cons.mp hmem with rfl | hmem2
    · rw [chapLoop_cons_some hm, if_neg (by rw [hsid]; exact Bool.false_ne_true), if_pos hzero]
      obtain ⟨d, hd, hprops⟩ := @chapDocsOf_covers sid chs st.ctr ch hch
      obtain ⟨A, c2, he⟩ := chapLoop_shape m rest (create_chapters st sid chs)
      refine ⟨d, ?_, hprops⟩
      rw [he]
      show d ∈ (create_chapters st sid chs).chapters ++ A
      apply List.mem_append_left
      rw [create_chapters_eq]
      show d ∈ st.chapters ++ chapDocsOf sid st.ctr chs
      exact List.mem_append_right _ hd
    · have hnd2 : (rest.map Prod.fst).Nodup := (List.nodup_cons.mp hnd).2
      have hni : p.1 ∉ rest.map Prod.fst := (List.nodup_cons.mp hnd).1
      have huniq2 : ∀ q ∈ rest, ∀ sid2, m q.1 = some sid2 → sid2 = sid → q.1 = name :=
        fun q hq => huniq q (List.mem_cons_of_mem _ hq)
      cases hm' : m p.1 with
      | none =>
        rw [chapLoop_cons_none hm']
        exact ih st name chs sid hmem2 hnd2 hm hsid hzero huniq2 ch hch
      | some sid0 =>
        by_cases h1 : sid0.isEmpty = true
        · rw [chapLoop_cons_some hm', if_pos h1]
          exact ih st name chs sid hmem2 hnd2 hm hsid hzero huniq2 ch hch
        · have hneq : sid0 ≠ sid := by
            intro hss
            have := huniq p (List.mem_cons_self _ _) sid0 hm' hss
            exact hni (this ▸ List.mem_map_of_mem Prod.fst hmem2)
          by_cases h2 : (st.chapters.filter (fun d => d.subject_id == sid0)).isEmpty = true
          · rw [chapLoop_cons_some hm', if_neg h1, if_pos h2]
            refine ih (create_chapters st sid0 p.2) name chs sid hmem2 hnd2 hm hsid ?_
              huniq2 ch hch
            rw [create_chapters_eq]
            show (((st.chapters ++ chapDocsOf sid0 st.ctr p.2).filter
              (fun d => d.subject_id == sid)).isEmpty) = true
            rw [List.filter_append]
            rw [show (chapDocsOf sid0 st.ctr p.2).filter (fun d => d.subject_id == sid)
                  = [] from ?_]
            · rw [List.append_nil]
              exact hzero
            · refine List.filter_eq_nil_iff.mpr ?_
              intro d hd
              rw [chapDocsOf_subject p.2 st.ctr d hd]
              intro hbeq
              exact hneq (by simpa using hbeq)
          · rw [chapLoop_cons_some hm', if_neg h1, if_neg h2]
            exact ih st name chs sid hmem2 hnd2 hm hsid hzero huniq2 ch hch

-- ---------- Claims ----------

/-- C1: with no database configured, `GET /api/subjects?board=Maharashtra&standard=12`
returns exactly 4 subjects with ids "1","2","3","4" in seed-catalog order;
`GET /api/subjects/1/chapters` returns exactly the two chapters "1-1","1-2";
and `GET /api/chapters/1-1/mcqs` returns exactly the MCQs "1-1-q1","1-1-q2". -/
theorem claim_C1 :
    (list_subjects seedCatalog none "Maharashtra" "12").1.map (·.id)
      = [chars "1", chars "2", chars "3", chars "4"]
    ∧ (list_subjects seedCatalog none "Maharashtra" "12").1.length = 4
    ∧ (list_chapters seedCatalog none (chars "1")).map (fun l => l.map (·.id))
      = .ok [chars "1-1", chars "1-2"]
    ∧ (list_mcqs seedCatalog none (chars "1-1")).map (fun l => l.map (·.id))
      = .ok [chars "1-1-q1", chars "1-1-q2"] := by
  refine ⟨by decide, by decide, by decide, by decide⟩

/-- C6: a malformed or foreign id decodes to a not-found outcome rather
than a thrown error: listing chapters for the subject id "zzz" returns a
404 error (both with no database and with a database that knows nothing
about "zzz"), while listing topics or MCQs for any chapter id whose
fallback decode fails returns an empty list, and those two endpoints never
raise at all. -/
theorem claim_C6 :
    (list_chapters seedCatalog none (chars "zzz")
       = .error ⟨404, "Chapters not found for subject"⟩)
    ∧ (∀ st : DBState,
        st.chapters.filter (fun d => d.subject_id == chars "zzz") = [] →
        subjNameById st.subjects (chars "zzz") = none →
        list_chapters seedCatalog (some st) (chars "zzz")
          = .error ⟨404, "Chapters not found for subject"⟩)
    ∧ (∀ (cat : Catalog) (cid : List Char), pureChapterDecode cat cid = none →
        list_topics cat none cid = .ok [] ∧ list_mcqs cat none cid = .ok [])
    ∧ (∀ (cat : Catalog) (db : Option DBState) (cid : List Char),
        (list_topics cat db cid).isOk ∧ (list_mcqs cat db cid).isOk) := by
  refine ⟨by decide, ?_, ?_, ?_⟩
  · intro st h1 h2
    simp only [list_chapters, getChapters, getSubjects, List.filter_true, h1, h2]
    decide
  · intro cat cid h
    constructor
    · simp only [list_topics, getTopics, topicsPureFallback, h]
    · simp only [list_mcqs, getMcqs, mcqsPureFallback, h]
  · intro cat db cid
    obtain ⟨l₁, h₁⟩ := list_topics_ok cat db cid
    obtain ⟨l₂, h₂⟩ := list_mcqs_ok cat db cid
    rw [h₁, h₂]
    exact ⟨rfl, rfl⟩

/-- C6 witness: the universally quantified parts applied at a concrete
database state and id. -/
theorem claim_C6_witness :
    (list_chapters seedCatalog (some emptyDB) (chars "zzz")
       = .error ⟨404, "Chapters not found for subject"⟩)
    ∧ (list_topics seedCatalog none (chars "zzz") = .ok []
       ∧ list_mcqs seedCatalog none (chars "zzz") = .ok []) :=
  ⟨claim_C6.2.1 emptyDB (by decide) (by decide),
   claim_C6.2.2.1 seedCatalog (chars "zzz") (by decide)⟩

/-- C7: with no database configured, `create_note` and `create_mcq` both
fail with a 503 outcome and leave the process state — in particular the
seed catalog — completely unchanged. -/
theorem claim_C7 (cat : Catalog) (chapter_id : List Char) (p : NoteIn) (q : McqOut) :
    create_note ⟨none, cat⟩ chapter_id p
      = (.error ⟨503, "Database not configured. Notes require database."⟩, ⟨none, cat⟩)
    ∧ create_mcq ⟨none, cat⟩ chapter_id q
      = (.error ⟨503, "Database not configured. Creating MCQs requires database."⟩,
         ⟨none, cat⟩) :=
  ⟨rfl, rfl⟩

/-- C10: in database mode `check_mcq_answer` looks the MCQ up by its id
alone: whenever a stored MCQ document matches the id, the submitted index
is compared against that document's `answer_index`, and the result is the
same for every chapter id in the request, matching or not. -/
theorem claim_C10 (st : DBState) (cid cid2 mid : List Char) (ans : Nat)
    (d : McqDoc) (ds : List McqDoc)
    (h : st.mcqs.filter (fun x => x.oid == mid) = d :: ds) :
    check_mcq_answer seedCatalog (some st) cid mid ans = .ok ((ans : Int) == d.answer_index)
    ∧ check_mcq_answer seedCatalog (some st) cid mid ans
        = check_mcq_answer seedCatalog (some st) cid2 mid ans := by
  constructor
  · simp only [check_mcq_answer, getMcqs, h]
  · simp only [check_mcq_answer, getMcqs, h]

/-- C10 witness: a database holding one MCQ under another chapter; checking
against a nonexistent chapter id still compares with the stored answer. -/
theorem claim_C10_witness :
    check_mcq_answer seedCatalog
        (some ⟨[], [], [], [], [⟨chars "m1", chars "c9", "q", ["a", "b"], 1⟩], 1⟩)
        (chars "no-such-chapter") (chars "m1") 1
      = .ok ((1 : Int) == (1 : Int))
    ∧ check_mcq_answer seedCatalog
        (some ⟨[], [], [], [], [⟨chars "m1", chars "c9", "q", ["a", "b"], 1⟩], 1⟩)
        (chars "no-such-chapter") (chars "m1") 1
      = check_mcq_answer seedCatalog
          (some ⟨[], [], [], [], [⟨chars "m1", chars "c9", "q", ["a", "b"], 1⟩], 1⟩)
          (chars "c9") (chars "m1") 1 :=
  claim_C10 ⟨[], [], [], [], [⟨chars "m1", chars "c9", "q", ["a", "b"], 1⟩], 1⟩
    (chars "no-such-chapter") (chars "c9") (chars "m1") 1
    ⟨chars "m1", chars "c9", "q", ["a", "b"], 1⟩ [] (by decide)

/-- C9 counterexample: the claim says `listTopics` decodes a chapter id
whose subject part parses as a negative integer by the same Python
negative-indexing rule as `listChapters`.  For "-3-1" that rule selects
subject "Economics" (position -4 of the filtered catalog), whose chapter 1
has a nonempty catalog topic list — yet `list_topics` returns the empty
list, because the leading "-" of the subject part is consumed by
`split("-", 1)` and the decode fails. -/
theorem claim_C9_counterexample :
    pyInt (chars "-3") = some (-3)
    ∧ (pyGet (mh12 seedCatalog) (-3 - 1)).map (·.name) = some "Economics"
    ∧ (alistGet SEED_TOPICS ("Economics", 1)).getD [] ≠ []
    ∧ list_topics seedCatalog none (chars "-3-1") = .ok [] := by
  refine ⟨by decide, by decide, by decide, by decide⟩

/-- C9 (amended): in pure fallback mode a subject id parsing as a
non-positive integer is not rejected with 404 — Python negative indexing
selects from the end of the filtered catalog, so `listChapters("0")`
returns the last catalog subject's chapters (ids "0-1","0-2") and
`listChapters("-1")` the second-to-last subject's.  `listTopics` and
`checkAnswer` decode chapter ids whose subject part parses as 0 the same
way, but a chapter id with a negative subject part never reaches that
decoding: its leading "-" is consumed as the split separator, so the
result degrades to an empty list / false. -/
theorem claim_C9 :
    (list_chapters seedCatalog none (chars "0")).map (fun l => l.map (fun c => (c.id, c.title)))
      = .ok [(chars "0-1", "Principles of Management"),
             (chars "0-2", "Entrepreneurship Development")]
    ∧ (list_chapters seedCatalog none (chars "-1")).map (fun l => l.map (·.id))
      = .ok [chars "-1-1", chars "-1-2"]
    ∧ list_topics seedCatalog none (chars "0-1")
      = .ok (synthTopics (chars "0-1")
              ((alistGet SEED_TOPICS ("Organization of Commerce and Management", 1)).getD []))
    ∧ check_mcq_answer seedCatalog none (chars "0-1") (chars "0-1-q1") 0 = .ok false
    ∧ list_topics seedCatalog none (chars "-1-1") = .ok [] := by
  refine ⟨by decide, by decide, by decide, by decide, by decide⟩

/-- C3 counterexample: the claim asserts that when the database query
raises (no database configured) the resolver returns "that database
result" without consulting the seed catalog.  With no database the chapter
query for subject "1" raises, and the response depends on the seed catalog
contents — the catalog IS consulted (and there is no database result to
return). -/
theorem claim_C3_counterexample :
    getChapters none (fun d => d.subject_id == chars "1") = .error ()
    ∧ list_chapters seedCatalog none (chars "1") ≠ list_chapters emptyCatalog none (chars "1") := by
  refine ⟨rfl, by decide⟩

/-- C3 (amended): for every dual-mode resolver, if the database query
returns a non-empty list the resolver returns that result directly, mapped
to the public shape and independent of the seed catalog; if the query
raises (no database configured), the resolver instead falls through to the
pure seed fallback, which synthesizes the response from the catalog. -/
theorem claim_C3 :
    (∀ (cat cat2 : Catalog) (st : DBState) (sid : List Char) (d : ChapterDoc)
       (ds : List ChapterDoc),
       st.chapters.filter (fun x => x.subject_id == sid) = d :: ds →
       list_chapters cat (some st) sid = .ok ((d :: ds).map mapChapterDoc)
       ∧ list_chapters cat (some st) sid = list_chapters cat2 (some st) sid)
    ∧ (∀ (cat cat2 : Catalog) (st : DBState) (cid : List Char) (d : TopicDoc)
       (ds : List TopicDoc),
       st.topics.filter (fun x => x.chapter_id == cid) = d :: ds →
       list_topics cat (some st) cid = .ok ((d :: ds).map mapTopicDoc)
       ∧ list_topics cat (some st) cid = list_topics cat2 (some st) cid)
    ∧ (∀ (cat cat2 : Catalog) (st : DBState) (cid : List Char) (d : McqDoc)
       (ds : List McqDoc),
       st.mcqs.filter (fun x => x.chapter_id == cid) = d :: ds →
       list_mcqs cat (some st) cid = .ok ((d :: ds).map mapMcqDoc)
       ∧ list_mcqs cat (some st) cid = list_mcqs cat2 (some st) cid)
    ∧ (∀ (cat : Catalog) (sid : List Char),
        list_chapters cat none sid = chaptersPureFallback cat sid)
    ∧ (∀ (cat : Catalog) (cid : List Char),
        list_topics cat none cid = .ok (topicsPureFallback cat cid))
    ∧ (∀ (cat : Catalog) (cid : List Char),
        list_mcqs cat none cid = .ok (mcqsPureFallback cat cid)) := by
  refine ⟨?_, ?_, ?_, fun _ _ => rfl, fun _ _ => rfl, fun _ _ => rfl⟩
  · intro cat cat2 st sid d ds h
    constructor
    · simp only [list_chapters, getChapters, h, List.isEmpty_cons, Bool.false_eq_true,
        if_false, ite_false]
    · simp only [list_chapters, getChapters, h, List.isEmpty_cons, Bool.false_eq_true,
        if_false, ite_false]
  · intro cat cat2 st cid d ds h
    constructor
    · simp only [list_topics, getTopics, h, List.isEmpty_cons, Bool.false_eq_true,
        if_false, ite_false]
    · simp only [list_topics, getTopics, h, List.isEmpty_cons, Bool.false_eq_true,
        if_false, ite_false]
  · intro cat cat2 st cid d ds h
    constructor
    · simp only [list_mcqs, getMcqs, h, List.isEmpty_cons, Bool.false_eq_true,
        if_false, ite_false]
    · simp only [list_mcqs, getMcqs, h, List.isEmpty_cons, Bool.false_eq_true,
        if_false, ite_false]

/-- C3 witness: the non-empty-result clause applied at a database holding
one chapter document; the two catalogs give the same direct mapping. -/
theorem claim_C3_witness :
    list_chapters seedCatalog
        (some ⟨[], [⟨chars "c1", chars "s1", 1, "T", none⟩], [], [], [], 1⟩) (chars "s1")
      = .ok ([⟨chars "c1", chars "s1", 1, "T", none⟩].map mapChapterDoc)
    ∧ list_chapters seedCatalog
        (some ⟨[], [⟨chars "c1", chars "s1", 1, "T", none⟩], [], [], [], 1⟩) (chars "s1")
      = list_chapters emptyCatalog
          (some ⟨[], [⟨chars "c1", chars "s1", 1, "T", none⟩], [], [], [], 1⟩) (chars "s1") :=
  claim_C3.1 seedCatalog emptyCatalog
    ⟨[], [⟨chars "c1", chars "s1", 1, "T", none⟩], [], [], [], 1⟩ (chars "s1")
    ⟨chars "c1", chars "s1", 1, "T", none⟩ [] (by decide)

/-- C2 counterexample: the claim asserts that after `ensure_seed(board,
standard)` EVERY catalog subject with zero recorded chapters has a full
chapter set, regardless of the board/standard filter.  Running
`ensure_seed("X", "Y")` on the empty database leaves the chapter collection
empty, although catalog subject "Economics" has catalog chapters and zero
recorded chapters: the chapter loop only reaches subjects whose name is in
the id-map built from subjects matching the requested filter. -/
theorem claim_C2_counterexample :
    "Economics" ∈ SEED_CHAPTERS.map Prod.fst
    ∧ (alistGet SEED_CHAPTERS "Economics").getD [] ≠ []
    ∧ emptyDB.chapters = []
    ∧ (ensure_seed seedCatalog "X" "Y" emptyDB).chapters = [] := by
  refine ⟨by decide, by decide, rfl, by decide⟩

/-- C8: `ensure_seed` is idempotent — re-running it for any board and
standard on any state it has already reconciled performs zero writes (the
state is unchanged) — and consequently calling list-subjects twice yields
identical responses, in particular identical id sets. -/
theorem claim_C8 :
    (∀ (board standard : String) (st : DBState),
      ensure_seed seedCatalog board standard (ensure_seed seedCatalog board standard st)
        = ensure_seed seedCatalog board standard st)
    ∧ (∀ (board standard : String) (db : Option DBState),
      (list_subjects seedCatalog db board standard).1
        = (list_subjects seedCatalog (list_subjects seedCatalog db board standard).2
            board standard).1) := by
  have hid : ∀ (b s : String) (st : DBState),
      ensure_seed seedCatalog b s (ensure_seed seedCatalog b s st)
        = ensure_seed seedCatalog b s st :=
    fun b s st => stable_ensure_id seedCatalog b s _ (stable_after seedCatalog b s st)
  refine ⟨hid, ?_⟩
  intro b s db
  cases db with
  | none => rfl
  | some st => simp only [list_subjects, ensure_seed_run, hid]

/-- C2 (amended): after `ensure_seed(board, standard)`, every catalog
subject whose name the reconciler's id map resolves to a nonempty id —
that is, a stored subject record matching the requested board and standard,
regardless of the catalog entry's own board/standard — has a full set of
chapter records keyed by (subject_id, number) whenever it had zero chapters
recorded, provided no other catalog entry resolves to the same id. -/
theorem claim_C2 (board standard : String) (st : DBState) (name : String)
    (chs : List ChapSeed) (sid : List Char)
    (hmem : (name, chs) ∈ SEED_CHAPTERS)
    (hmap : (seedPhase1 seedCatalog board standard st).2 name = some sid)
    (hsid : sid.isEmpty = false)
    (hzero : st.chapters.filter (fun d => d.subject_id == sid) = [])
    (huniq : ∀ p ∈ SEED_CHAPTERS, ∀ sid2,
      (seedPhase1 seedCatalog board standard st).2 p.1 = some sid2 → sid2 = sid →
        p.1 = name) :
    ∀ ch ∈ chs, ∃ d ∈ (ensure_seed seedCatalog board standard st).chapters,
      d.subject_id = sid ∧ d.number = ch.number ∧ d.title = ch.title := by
  intro ch hch
  have h1 : (seedPhase1 seedCatalog board standard st).1.chapters = st.chapters := by
    rw [seedPhase1_eq]
  have hfe : ((seedPhase1 seedCatalog board standard st).1.chapters.filter
      (fun d => d.subject_id == sid)).isEmpty = true := by
    rw [h1, hzero]
    rfl
  obtain ⟨d, hd, hprops⟩ := chapLoop_creates SEED_CHAPTERS
    (seedPhase1 seedCatalog board standard st).1 name chs sid hmem
    (by decide) hmap hsid hfe huniq ch hch
  refine ⟨d, ?_, hprops⟩
  rw [ensure_seed_chapters]
  exact hd

/-- C2 witness: a database holding only a subject named "Economics" under
board "CBSE" and standard "10" (which the seed catalog lists under
Maharashtra/12): reconciling for (CBSE, 10) still seeds that subject's full
catalog chapter set. -/
theorem claim_C2_witness :
    ∃ d ∈ (ensure_seed seedCatalog "CBSE" "10"
        ⟨[⟨chars "x", "CBSE", "10", "Economics", none, none, none⟩],
         [], [], [], [], 0⟩).chapters,
      d.subject_id = chars "x" ∧ d.number = 1
        ∧ d.title = "Introduction to Micro Economics" :=
  claim_C2 "CBSE" "10"
    ⟨[⟨chars "x", "CBSE", "10", "Economics", none, none, none⟩], [], [], [], [], 0⟩
    "Economics"
    [⟨1, "Introduction to Micro Economics", some "Basic concepts of micro economics."⟩,
     ⟨2, "Utility Analysis", some "Cardinal and ordinal utility."⟩]
    (chars "x") (by decide) (by decide) (by decide) (by decide) (by decide)
    ⟨1, "Introduction to Micro Economics", some "Basic concepts of micro economics."⟩
    (by decide)

end StudyApp
